import Mathlib

/-!
Verification development for the intersect_sdk capability introspector and
strict schema compiler (src/intersect_sdk/_internal/schema.py together with
src/intersect_sdk/annotations.py).

The Python code is shallowly embedded as follows.

* JSON schema fragments are modelled by the inductive `JsonVal`; Python dict
  truthiness is modelled by `truthy`.
* A Python type annotation, as received by pydantic `TypeAdapter`, is
  modelled by the inductive `Ann`.
* The pydantic core schema a type annotation is lowered to is modelled by
  `CoreSchema`, with `toCore` modelling the lowering performed by pydantic
  2.5.3.  In that lowering a sub-annotation that is exactly `typing.Any` is
  elided (the container core schema simply lacks the item/value schema),
  while `object` is lowered to an explicit any-core-schema; the docstring of
  `GenerateTypedJsonSchema.any_schema` in schema.py documents exactly this
  split ("This will handle object in most other types (i.e. List[object]),
  but NOT i.e. List[Any]").
* `generate_inner` models JSON schema generation through the class
  `GenerateTypedJsonSchema`: each branch mirrors the corresponding override
  in schema.py, and the "defer to Pydantic" parts follow the pydantic
  default generation.  Failures raised through
  `handle_invalid_for_json_schema` (class `PydanticInvalidForJsonSchema`, a
  `PydanticUserError`) are modelled by `Except.error` carrying the message.
* `die` is modelled from the spec: src/intersect_sdk/_internal/utils.py is
  not part of the provided sources; per spec section 4.4 the reporter logs
  the violation and terminates the process immediately, which we model as a
  hard `Except.error` carrying the logged message.  `logger.warning` calls
  are modelled by an accumulated list of warning strings in the result.
-/

/-- JSON values (used for JSON schema fragments). -/
inductive JsonVal where
  | str : String → JsonVal
  | int : Int → JsonVal
  | bool : Bool → JsonVal
  | arr : List JsonVal → JsonVal
  | obj : List (String × JsonVal) → JsonVal
deriving Repr

/-- Association list lookup used for JSON objects and for the schema table. -/
def lookupStr (l : List (String × JsonVal)) (k : String) : Option JsonVal :=
  match l with
  | [] => none
  | (k2, v) :: rest => if k2 = k then some v else lookupStr rest k

/-- Python `d.get(k)` on a JSON object (returns `none` on non-objects). -/
def jget (j : JsonVal) (k : String) : Option JsonVal :=
  match j with
  | .obj fields => lookupStr fields k
  | _ => none

/-- Python truthiness of a JSON value (empty dict, empty list, empty string,
False and 0 are falsy). -/
def truthy : JsonVal → Bool
  | .obj [] => false
  | .arr [] => false
  | .str s => !(s = "")
  | .bool b => b
  | .int i => !(i = 0)
  | _ => true

/-- Python truthiness of `d.get(k)` (a missing key is falsy). -/
def truthyOpt : Option JsonVal → Bool
  | none => false
  | some j => truthy j

/-- The schema table: a Python dict from type name to schema fragment,
modelled as an association list in insertion order. -/
abbrev Defs : Type := List (String × JsonVal)

/-- Python `d[k] = v`: overwrite the existing binding or append a new one. -/
def upsert (d : Defs) (k : String) (v : JsonVal) : Defs :=
  match d with
  | [] => [(k, v)]
  | (k2, v2) :: rest => if k2 = k then (k, v) :: rest else (k2, v2) :: upsert rest k v

/-- Python `d.update(news)`: upsert every binding of `news` into `d`. -/
def updateDefs (d : Defs) (news : Defs) : Defs :=
  match news with
  | [] => d
  | (k, v) :: rest => updateDefs (upsert d k v) rest

/-- A Python type annotation as received by pydantic `TypeAdapter`.  This is
the closed set of shapes treated by schema.py: primitives, Any and object,
List, Set, FrozenSet, positional and variable Tuple, Dict (and other Mapping
types, which lower identically), Generator, pydantic BaseModel subclasses,
dataclasses, TypedDict, NamedTuple, Enum classes, Literal values and
TypeAliasType aliases. -/
inductive Ann where
  | anyT
  | objT
  | noneT
  | intT
  | strT
  | boolT
  | floatT
  | listT : Option Ann → Ann
  | setT : Option Ann → Ann
  | frozensetT : Option Ann → Ann
  | tuplePT : List Ann → Ann
  | tupleVT : Option Ann → Ann
  | dictT : Option (Ann × Ann) → Ann
  | generatorT : Ann → Ann → Ann → Ann
  | modelT : String → List (String × Ann) → Ann
  | dataclassT : String → List (String × Ann) → Ann
  | typedDictT : String → List (String × Ann) → Ann
  | namedTupleT : String → List (String × Ann) → Ann
  | enumT : String → List String → Ann
  | literalT : List String → Ann
  | aliasT : String → Ann → Ann
deriving Repr

/-- A pydantic core schema, the input of the `GenerateTypedJsonSchema`
methods.  Optional components model core schemas in which pydantic omitted
the item, key or value schema. -/
inductive CoreSchema where
  | anyC
  | noneC
  | intC
  | strC
  | boolC
  | floatC
  | listC : Option CoreSchema → CoreSchema
  | setC : Option CoreSchema → CoreSchema
  | frozensetC : Option CoreSchema → CoreSchema
  | tuplePC : List CoreSchema → CoreSchema
  | tupleVC : Option CoreSchema → CoreSchema
  | dictC : Option CoreSchema → Option CoreSchema → CoreSchema
  | genC : Option CoreSchema → CoreSchema
  | modelC : String → List (String × CoreSchema) → CoreSchema
  | dataclassC : String → List (String × CoreSchema) → CoreSchema
  | typedDictC : String → List (String × CoreSchema) → CoreSchema
  | namedTupleC : String → List (String × CoreSchema) → CoreSchema
  | enumC : String → List String → CoreSchema
  | literalC : List String → CoreSchema
  | aliasC : String → CoreSchema → CoreSchema
deriving Repr

/-- Bool test of whether an annotation is exactly `typing.Any`. -/
def isAnyT : Ann → Bool
  | .anyT => true
  | _ => false

/-- Pydantic elides a sub-schema whose annotation is exactly `typing.Any`
when it is the item type of a sequence, the element type of a variable
tuple, or a key or value type of a mapping (the container core schema then
simply lacks that component); any other annotation keeps its core schema. -/
def elideAny (a : Ann) (c : CoreSchema) : Option CoreSchema :=
  if isAnyT a then none else some c

mutual

/-- Lowering of a Python annotation to its pydantic core schema.  `object`
lowers to an explicit any core schema everywhere, while a `typing.Any`
sub-annotation of a sequence, variable tuple or mapping is elided through
`elideAny`. -/
def toCore : Ann → CoreSchema
  | .anyT => .anyC
  | .objT => .anyC
  | .noneT => .noneC
  | .intT => .intC
  | .strT => .strC
  | .boolT => .boolC
  | .floatT => .floatC
  | .listT none => .listC none
  | .listT (some a) => .listC (elideAny a (toCore a))
  | .setT none => .setC none
  | .setT (some a) => .setC (elideAny a (toCore a))
  | .frozensetT none => .frozensetC none
  | .frozensetT (some a) => .frozensetC (elideAny a (toCore a))
  | .tuplePT ms => .tuplePC (toCoreList ms)
  | .tupleVT none => .tupleVC none
  | .tupleVT (some a) => .tupleVC (elideAny a (toCore a))
  | .dictT none => .dictC none none
  | .dictT (some (k, v)) => .dictC (elideAny k (toCore k)) (elideAny v (toCore v))
  | .generatorT y _ _ => .genC (some (toCore y))
  | .modelT n fs => .modelC n (toCoreFields fs)
  | .dataclassT n fs => .dataclassC n (toCoreFields fs)
  | .typedDictT n fs => .typedDictC n (toCoreFields fs)
  | .namedTupleT n fs => .namedTupleC n (toCoreFields fs)
  | .enumT n vs => .enumC n vs
  | .literalT vs => .literalC vs
  | .aliasT n a => .aliasC n (toCore a)
termination_by structural a => a

/-- Lowering of tuple member annotations (no elision for positional tuple
members; an Any member stays an explicit any core schema). -/
def toCoreList : List Ann → List CoreSchema
  | [] => []
  | a :: rest => toCore a :: toCoreList rest
termination_by structural l => l

/-- Lowering of field annotations of a record type (no elision; an Any field
stays an explicit any core schema). -/
def toCoreFields : List (String × Ann) → List (String × CoreSchema)
  | [] => []
  | (k, a) :: rest => (k, toCore a) :: toCoreFields rest
termination_by structural l => l

end

/-- Shorthand for the reference object produced with the reference template
used in merge_schema_definitions (hash, components, schemas, then the
name). -/
def refJson (n : String) : JsonVal :=
  JsonVal.obj [("$ref", JsonVal.str ("#/components/schemas/" ++ n))]

/-- Names of the required properties of a record schema. -/
def reqNames : List (String × CoreSchema) → List JsonVal
  | [] => []
  | (k, _) :: rest => JsonVal.str k :: reqNames rest

/-- enum_schema: a single member yields a const schema, several members an
enum schema. -/
def enumBody (n : String) : List String → Except String (JsonVal × Defs)
  | [v] => .ok (JsonVal.obj [("const", JsonVal.str v), ("title", JsonVal.str n)], [])
  | vs => .ok (JsonVal.obj [("enum", JsonVal.arr (vs.map JsonVal.str)),
      ("title", JsonVal.str n), ("type", JsonVal.str ("string"))], [])

/-- literal_schema: a single value yields const, several values enum. -/
def literalSchema : List String → JsonVal
  | [v] => JsonVal.obj [("const", JsonVal.str v)]
  | vs => JsonVal.obj [("enum", JsonVal.arr (vs.map JsonVal.str))]

mutual

/-- JSON schema generation through `GenerateTypedJsonSchema` for a core
schema appearing in a nested position.  Returns the generated fragment plus
the accumulated named definitions (the $defs table pydantic builds, with the
reference template of merge_schema_definitions).  Each error branch mirrors
an override in schema.py; the successful branches mirror the pydantic
default generation that those overrides defer to.  Named types (BaseModel,
dataclass, TypedDict, Enum, TypeAliasType) are emitted as a reference plus a
definition, NamedTuple schemas are emitted inline. -/
def generate_inner : CoreSchema → Except String (JsonVal × Defs)
  | .anyC => .error ("Any or object : dynamic typing is not allowed for INTERSECT schemas")
  | .noneC => .ok (JsonVal.obj [("type", JsonVal.str ("null"))], [])
  | .intC => .ok (JsonVal.obj [("type", JsonVal.str ("integer"))], [])
  | .strC => .ok (JsonVal.obj [("type", JsonVal.str ("string"))], [])
  | .boolC => .ok (JsonVal.obj [("type", JsonVal.str ("boolean"))], [])
  | .floatC => .ok (JsonVal.obj [("type", JsonVal.str ("number"))], [])
  | .listC none => .error ("list subtyping may not be dynamic in INTERSECT")
  | .listC (some c) => do
      let (j, d) ← generate_inner c
      .ok (JsonVal.obj [("type", JsonVal.str ("array")), ("items", j)], d)
  | .setC none => .error ("set subtyping may not be dynamic in INTERSECT")
  | .setC (some c) => do
      let (j, d) ← generate_inner c
      .ok (JsonVal.obj [("type", JsonVal.str ("array")), ("items", j),
        ("uniqueItems", JsonVal.bool true)], d)
  | .frozensetC none => .error ("frozenset subtyping may not be dynamic in INTERSECT")
  | .frozensetC (some c) => do
      let (j, d) ← generate_inner c
      .ok (JsonVal.obj [("type", JsonVal.str ("array")), ("items", j),
        ("uniqueItems", JsonVal.bool true)], d)
  | .tuplePC ms => do
      -- super().tuple_positional_schema generates the member schemas first;
      -- the override then rejects the schema with no items and no prefixItems
      let (js, d) ← genItems ms
      if js.isEmpty then
        .error ("tuple: () is not a permitted tuple argument for INTERSECT")
      else
        .ok (JsonVal.obj [("type", JsonVal.str ("array")), ("prefixItems", JsonVal.arr js),
          ("minItems", JsonVal.int js.length), ("maxItems", JsonVal.int js.length)], d)
  | .tupleVC none => .error ("empty tuple typing for INTERSECT")
  | .tupleVC (some c) => do
      let (j, d) ← generate_inner c
      .ok (JsonVal.obj [("type", JsonVal.str ("array")), ("items", j)], d)
  | .genC none =>
      .error ("generator yield subtyping (first argument) may not be dynamic in INTERSECT")
  | .genC (some c) => do
      let (j, d) ← generate_inner c
      let js := JsonVal.obj [("type", JsonVal.str ("array")), ("items", j)]
      if truthyOpt (jget js ("items")) then .ok (js, d)
      else .error ("generator yield subtyping (first argument) may not be dynamic in INTERSECT")
  | .dictC keys vals =>
      -- the override first requires the keys core schema to be the str schema
      (match keys with
      | some .strC =>
        (match vals with
        | some vc => do
            let (j, d) ← generate_inner vc
            let js := JsonVal.obj [("type", JsonVal.str ("object")), ("additionalProperties", j)]
            if truthyOpt (jget js ("additionalProperties")) ||
                truthyOpt (jget js ("patternProperties")) then .ok (js, d)
            else .error ("dict or mapping value type cannot be Any/object for INTERSECT")
        | none =>
            let js := JsonVal.obj [("type", JsonVal.str ("object"))]
            if truthyOpt (jget js ("additionalProperties")) ||
                truthyOpt (jget js ("patternProperties")) then .ok (js, [])
            else .error ("dict or mapping value type cannot be Any/object for INTERSECT"))
      | _ => .error ("dict or mapping key type needs to be \'str\' for INTERSECT"))
  | .modelC n fs => do
      -- model_schema: generate the object schema, reject a model with no
      -- properties, then emit it as a reference plus a definition
      let (props, d) ← genFields fs
      if props.isEmpty then
        .error ("pydantic.BaseModel \"" ++ n ++ "\" (needs at least one property for INTERSECT)")
      else
        .ok (refJson n, upsert d n (JsonVal.obj [("type", JsonVal.str ("object")),
          ("properties", JsonVal.obj props), ("required", JsonVal.arr (reqNames fs)),
          ("title", JsonVal.str n)]))
  | .dataclassC n fs => do
      -- dataclass_schema with its no-property override
      let (props, d) ← genFields fs
      if props.isEmpty then
        .error ("dataclass \"" ++ n ++ "\" (needs at least one property for INTERSECT)")
      else
        .ok (refJson n, upsert d n (JsonVal.obj [("type", JsonVal.str ("object")),
          ("properties", JsonVal.obj props), ("required", JsonVal.arr (reqNames fs)),
          ("title", JsonVal.str n)]))
  | .typedDictC n fs => do
      -- typed_dict_schema with its no-property override
      let (props, d) ← genFields fs
      if props.isEmpty then
        .error ("TypedDict (empty TypedDict not allowed in INTERSECT)")
      else
        .ok (refJson n, upsert d n (JsonVal.obj [("type", JsonVal.str ("object")),
          ("properties", JsonVal.obj props), ("required", JsonVal.arr (reqNames fs)),
          ("title", JsonVal.str n)]))
  | .namedTupleC n fs =>
      -- p_arguments_schema: reject an empty argument list before generation;
      -- the resulting array schema is emitted inline, with no definition
      (match fs with
      | [] => .error ("core_schema.ArgumentsSchema (missing arguments, needed for INTERSECT - are you using a NamedTuple class with no properties?)")
      | fs2 => do
          let (props, d) ← genFields fs2
          .ok (JsonVal.obj [("type", JsonVal.str ("array")),
            ("prefixItems", JsonVal.arr (props.map Prod.snd)),
            ("minItems", JsonVal.int props.length), ("maxItems", JsonVal.int props.length),
            ("title", JsonVal.str n)], d))
  | .enumC n vs => do
      let (body, d) ← enumBody n vs
      .ok (refJson n, upsert d n body)
  | .literalC vs => .ok (literalSchema vs, [])
  | .aliasC n c => do
      let (body, d) ← generate_inner c
      .ok (refJson n, upsert d n body)
termination_by structural c => c

/-- Member schemas of a positional tuple (the prefixItems list). -/
def genItems : List CoreSchema → Except String (List JsonVal × Defs)
  | [] => .ok ([], [])
  | c :: rest => do
      let (j, d1) ← generate_inner c
      let (js, d2) ← genItems rest
      .ok (j :: js, updateDefs d1 d2)
termination_by structural l => l

/-- Property schemas of a record-like core schema. -/
def genFields : List (String × CoreSchema) → Except String (List (String × JsonVal) × Defs)
  | [] => .ok ([], [])
  | (k, c) :: rest => do
      let (j, d1) ← generate_inner c
      let (js, d2) ← genFields rest
      .ok ((k, j) :: js, updateDefs d1 d2)
termination_by structural l => l

end

/-- Top-level JSON schema generation, `adapter.json_schema(...)` with the
reference template of merge_schema_definitions and the schema generator
class `GenerateTypedJsonSchema`.  Pydantic resolves the reference at the
root: the schema of a named type queried at the top level is returned as the
definition body itself (the nested named types it mentions stay in $defs).
The returned pair is (schema with $defs popped, the popped $defs table). -/
def genTop : CoreSchema → Except String (JsonVal × Defs)
  | .modelC n fs => do
      let (props, d) ← genFields fs
      if props.isEmpty then
        .error ("pydantic.BaseModel \"" ++ n ++ "\" (needs at least one property for INTERSECT)")
      else
        .ok (JsonVal.obj [("type", JsonVal.str ("object")), ("properties", JsonVal.obj props),
          ("required", JsonVal.arr (reqNames fs)), ("title", JsonVal.str n)], d)
  | .dataclassC n fs => do
      let (props, d) ← genFields fs
      if props.isEmpty then
        .error ("dataclass \"" ++ n ++ "\" (needs at least one property for INTERSECT)")
      else
        .ok (JsonVal.obj [("type", JsonVal.str ("object")), ("properties", JsonVal.obj props),
          ("required", JsonVal.arr (reqNames fs)), ("title", JsonVal.str n)], d)
  | .typedDictC n fs => do
      let (props, d) ← genFields fs
      if props.isEmpty then
        .error ("TypedDict (empty TypedDict not allowed in INTERSECT)")
      else
        .ok (JsonVal.obj [("type", JsonVal.str ("object")), ("properties", JsonVal.obj props),
          ("required", JsonVal.arr (reqNames fs)), ("title", JsonVal.str n)], d)
  | .enumC n vs => enumBody n vs
  | .aliasC _ c => generate_inner c
  | c => generate_inner c

/-- Python test `inspect.isclass(get_origin(ann)) and
issubclass(get_origin(ann), Mapping)` from merge_schema_definitions: true
exactly for the parametrised mapping annotations (`dict` is registered as a
`Mapping` subclass, so Dict, OrderedDict and Mapping all pass). -/
def isMappingOriginB : Ann → Bool
  | .dictT _ => true
  | _ => false

/-- Python test `inspect.isclass(ann) and issubclass(ann, Tuple) and
hasattr(ann, _fields)` from merge_schema_definitions: true exactly for
NamedTuple classes. -/
def isNamedTupleClassB : Ann → Bool
  | .namedTupleT _ _ => true
  | _ => false

/-- Python test `inspect.isclass(ann) and issubclass(ann, Enum)`. -/
def isEnumClassB : Ann → Bool
  | .enumT _ _ => true
  | _ => false

/-- Python test `isinstance(ann, TypeAliasType)`. -/
def isAliasB : Ann → Bool
  | .aliasT _ _ => true
  | _ => false

/-- The `__name__` attribute of an annotation; only named annotations reach
the accesses in merge_schema_definitions. -/
def annName : Ann → String
  | .modelT n _ => n
  | .dataclassT n _ => n
  | .typedDictT n _ => n
  | .namedTupleT n _ => n
  | .enumT n _ => n
  | .aliasT n _ => n
  | _ => ""

/-- An abbreviated repr of an annotation, standing for the Python string
interpolation of the annotation object into diagnostic messages. -/
def annRepr : Ann → String
  | .anyT => "typing.Any"
  | .objT => "object"
  | .noneT => "None"
  | .intT => "int"
  | .strT => "str"
  | .boolT => "bool"
  | .floatT => "float"
  | .listT _ => "typing.List"
  | .setT _ => "typing.Set"
  | .frozensetT _ => "typing.FrozenSet"
  | .tuplePT _ => "typing.Tuple"
  | .tupleVT _ => "typing.Tuple"
  | .dictT _ => "typing.Dict"
  | .generatorT _ _ _ => "typing.Generator"
  | .modelT n _ => n
  | .dataclassT n _ => n
  | .typedDictT n _ => n
  | .namedTupleT n _ => n
  | .enumT n _ => n
  | .literalT _ => "typing.Literal"
  | .aliasT n _ => n

/-- Bool test of whether the generated schema has the given value under the
"type" key (`schema_type == ...` in merge_schema_definitions). -/
def jtypeIs (schema : JsonVal) (t : String) : Bool :=
  match jget schema ("type") with
  | some (JsonVal.str s) => s = t
  | _ => false

/-- The $defs merging step of merge_schema_definitions:
`definitions = schema.pop($defs); if definitions: schemas.update(definitions)`. -/
def mergeDefsAux (schemas definitions : Defs) : Defs :=
  if definitions.isEmpty then schemas else updateDefs schemas definitions

/-- merge_schema_definitions from schema.py: generate the schema of the
annotation, pop its $defs into the shared schema table, then either promote
the fragment into the table under the name of the originating type (and
return a reference) or return the fragment inline, depending on the kind of
the originating annotation. -/
def merge_schema_definitions (ann : Ann) (schemas : Defs) : Except String (JsonVal × Defs) :=
  match genTop (toCore ann) with
  | .error e => .error e
  | .ok (schema, definitions) =>
    let schemas2 := mergeDefsAux schemas definitions
    -- TypeAliasType annotations always get their own definitions
    if isAliasB ann then
      .ok (refJson (annName ann), upsert schemas2 (annName ann) schema)
    else if jtypeIs schema ("object") then
      -- Dict, OrderedDict and Mapping lack a user-defined label: inline them
      (if isMappingOriginB ann then .ok (schema, schemas2)
       else .ok (refJson (annName ann), upsert schemas2 (annName ann) schema))
    else if jtypeIs schema ("array") then
      -- NamedTuples get their own definitions, all other array types do not
      (if isNamedTupleClassB ann then
        .ok (refJson (annName ann), upsert schemas2 (annName ann) schema)
       else .ok (schema, schemas2))
    else if (jget schema ("enum")).isSome || (jget schema ("const")).isSome then
      -- Enum typings get their own definitions, Literals are inlined
      (if isEnumClassB ann then
        .ok (refJson (annName ann), upsert schemas2 (annName ann) schema)
       else .ok (schema, schemas2))
    else .ok (schema, schemas2)

/-- The state of a Python annotation slot in a signature: absent
(`inspect.Signature.empty`), the literal `None`, or a type annotation. -/
inductive AnnState where
  | empty
  | noneA
  | typ : Ann → AnnState
deriving Repr

/-- One parameter of an inspected signature.  `hasDefault` records whether
`parameter.default` differs from `Parameter.empty`; the introspector in
schema.py never reads it. -/
structure Param where
  name : String
  ann : AnnState
  hasDefault : Bool
deriving Repr

/-- One method of a capability class as seen by `dir` plus `getattr`:
its name, whether the intersect_message and intersect_status marker
attributes are present, its signature (all parameters, including the
receiver), its return annotation, its docstring, and the two content-type
attributes attached by the intersect_message decorator. -/
structure Method where
  name : String
  intersectMessage : Bool
  intersectStatus : Bool
  params : List Param
  returnAnn : AnnState
  docstring : Option String
  requestContent : String
  responseContent : String
deriving Repr

/-- A capability class: its `__name__` and its methods in `dir` order. -/
structure Capability where
  name : String
  methods : List Method
deriving Repr

/-- `_get_functions(capability, BASE_ATTR)`: the methods carrying the
intersect_message marker attribute, in `dir` order. -/
def get_functions_message (cap : Capability) : List Method :=
  cap.methods.filter (fun m => m.intersectMessage)

/-- `_get_functions(capability, BASE_STATUS_ATTR)`: the methods carrying the
intersect_status marker attribute, in `dir` order. -/
def get_functions_status (cap : Capability) : List Method :=
  cap.methods.filter (fun m => m.intersectStatus)

/-- The `message` object of one channel operation. -/
structure ChannelMessage where
  schemaFormat : String
  contentType : String
  traits : JsonVal
  payload : Option JsonVal
deriving Repr

/-- One channel operation (`publish` or `subscribe`): its message object and
the optional description taken from the method docstring. -/
structure ChannelOperation where
  message : ChannelMessage
  description : Option String
deriving Repr

/-- One entry of the channel map. -/
structure Channel where
  publish : ChannelOperation
  subscribe : ChannelOperation
deriving Repr

/-- Modelled from the spec: FunctionMetadata
(src/intersect_sdk/_internal/function_metadata.py is not among the provided
sources).  Per spec section 3, a Dispatch Table entry binds the callable
handle together with the request validator/deserializer (absent if no
request type) and the response validator/serializer (absent if no declared
response); the call in get_schemas_and_functions fixes that field order.
A pydantic `TypeAdapter(t)` is represented by the adapted annotation `t`. -/
structure FunctionMetadata where
  method : Method
  requestAdapter : Option Ann
  responseAdapter : Option Ann
deriving Repr

/-- The status function triple returned by _status_fn_schema: the name of
the status function, the merged schema fragment of its return type, and its
response adapter (`TypeAdapter(None)`, represented by `Ann.noneT`, when the
capability has no status function). -/
structure StatusTriple where
  statusName : Option String
  statusSchema : Option JsonVal
  statusAdapter : Ann
deriving Repr

/-- The full result of get_schemas_and_functions, plus the warnings logged
through `logger.warning` on the way (the code returns the first four
components; warnings are modelled explicitly so that non-fatal diagnostics
are visible in the result). -/
structure IntrospectionResult where
  schemas : Defs
  status : StatusTriple
  channels : List (String × Channel)
  function_map : List (String × FunctionMetadata)
  warnings : List String
deriving Repr

def ASYNCAPI_VERSION : String := "2.6.0"

/-- The hard-coded schemaFormat string of every channel message. -/
def schemaFormatString : String :=
  "application/vnd.aai.asyncapi+json;version=" ++ ASYNCAPI_VERSION

/-- The common-headers traits reference attached to every channel message. -/
def commonHeadersRef : JsonVal :=
  JsonVal.obj [("$ref", JsonVal.str ("#/components/messageTraits/commonHeaders"))]

/-- The SCHEMA_HELP_MSG constant of schema.py (appended to the two
missing-annotation diagnostics). -/
def SCHEMA_HELP_MSG : String :=
  "\nValid types include any class extending from pydantic.BaseModel, dataclasses, primitives, List, Set, FrozenSet, Iterable, Dict, Mapping, Tuple, NamedTuple, TypedDict, Optional, and Union.\nA complete list of valid types can be found at the following links:\nFor a general overview, https://docs.pydantic.dev/latest/concepts/types/\nFor standard library types, https://docs.pydantic.dev/latest/api/standard_library_types/\nFor Pydantic specific type, https://docs.pydantic.dev/latest/api/types/\nFor networking types, https://docs.pydantic.dev/latest/api/networks/\nFor a complete reference, https://docs.pydantic.dev/latest/concepts/conversion_table\n"

/-- Diagnostic of a message function with a bad parameter count. -/
def paramCountMsg (cap fn : String) : String :=
  "On capability \'" ++ cap ++ "\', function \'" ++ fn ++ "\' should have \'self\' and zero or one additional parameters"

/-- Diagnostic of a message function parameter with no annotation. -/
def missingParamMsg (cap p fn : String) : String :=
  "On capability \'" ++ cap ++ "\', parameter \'" ++ p ++ "\' type annotation on function \'" ++ fn ++ "\' missing. " ++ SCHEMA_HELP_MSG

/-- Diagnostic wrapping a schema generation error of a request parameter. -/
def invalidParamMsg (cap p : String) (a : Ann) (fn e : String) : String :=
  "On capability \'" ++ cap ++ "\', parameter \'" ++ p ++ "\' type annotation \'" ++ annRepr a ++ "\' on function \'" ++ fn ++ "\' is invalid\n" ++ e

/-- Diagnostic of a message function with no return annotation. -/
def missingReturnMsg (cap fn : String) : String :=
  "On capability \'" ++ cap ++ "\', return type annotation on function \'" ++ fn ++ "\' missing. " ++ SCHEMA_HELP_MSG

/-- Diagnostic wrapping a schema generation error of a return annotation. -/
def invalidReturnMsg (cap : String) (r : Ann) (fn e : String) : String :=
  "On capability \'" ++ cap ++ "\', return annotation \'" ++ annRepr r ++ "\' on function \'" ++ fn ++ "\' is invalid.\n" ++ e

/-- Diagnostic of a capability with more than one status function. -/
def statusDupMsg (cap : String) : String :=
  "Class \'" ++ cap ++ "\' should only have one function annotated with the @intersect_status() decorator."

/-- Warning logged for a capability with no status function. -/
def statusAbsentMsg (cap : String) : String :=
  "Class \'" ++ cap ++ "\' has no function annotated with the @intersect_status() decorator. No status information will be provided when sending status messages."

/-- Diagnostic of a status function with extra parameters. -/
def statusParamsMsg (cap fn : String) : String :=
  "On capability \'" ++ cap ++ "\', capability status function \'" ++ fn ++ "\' should have no parameters other than \'self\'"

/-- Diagnostic of a status function with no return annotation. -/
def statusReturnMsg (cap fn : String) : String :=
  "On capability \'" ++ cap ++ "\', capability status function \'" ++ fn ++ "\' should have a valid return annotation."

/-- Diagnostic wrapping a schema generation error of a status return type. -/
def statusInvalidMsg (cap : String) (r : Ann) (fn e : String) : String :=
  "On capability \'" ++ cap ++ "\', return annotation \'" ++ annRepr r ++ "\' on function \'" ++ fn ++ "\' is invalid.\n" ++ e

/-- Diagnostic of a capability with no intersect_message function. -/
def noEntrypointsMsg (cap : String) : String :=
  "No entrypoints detected on class \'" ++ cap ++ "\'. Please annotate at least one entrypoint with \'@intersect_message()\' ."

/-- The channel entry built for one message function: the publish operation
carries the request content type attribute and the response payload, the
subscribe operation carries the response content type attribute and the
request payload, exactly as in get_schemas_and_functions; the docstring, if
present, becomes the description of both operations. -/
def buildChannel (m : Method) (subPayload pubPayload : Option JsonVal) : Channel :=
  { publish := { message := { schemaFormat := schemaFormatString,
                              contentType := m.requestContent,
                              traits := commonHeadersRef,
                              payload := pubPayload },
                 description := m.docstring },
    subscribe := { message := { schemaFormat := schemaFormatString,
                                contentType := m.responseContent,
                                traits := commonHeadersRef,
                                payload := subPayload },
                   description := m.docstring } }

/-- The body of the per-method loop of get_schemas_and_functions: validate
the signature of one intersect_message method, compile its request and
response types, and produce the updated schema table, the channel entry and
the FunctionMetadata entry.  Every `die` is a hard `Except.error`. -/
def process_message_fn (capName : String) (m : Method) (schemas : Defs) :
    Except String (Defs × Channel × FunctionMetadata) :=
  if m.params.length = 0 || m.params.length > 2 then
    .error (paramCountMsg capName m.name)
  else
    -- this block handles request params
    let requestStep : Except String (Defs × Option JsonVal × Option Ann) :=
      match m.params with
      | [_slf, p] =>
        (match p.ann with
        | .empty => .error (missingParamMsg capName p.name m.name)
        | .noneA => .ok (schemas, none, none)
        | .typ a =>
          (match merge_schema_definitions a schemas with
          | .ok (payload, schemas2) => .ok (schemas2, some payload, some a)
          | .error e => .error (invalidParamMsg capName p.name a m.name e)))
      | _ => .ok (schemas, none, none)
    match requestStep with
    | .error e => .error e
    | .ok (schemas2, subPayload, reqAdapter) =>
      -- this block handles response parameters
      match m.returnAnn with
      | .empty => .error (missingReturnMsg capName m.name)
      | .noneA =>
          .ok (schemas2, buildChannel m subPayload none,
            { method := m, requestAdapter := reqAdapter, responseAdapter := none })
      | .typ r =>
        (match merge_schema_definitions r schemas2 with
        | .ok (payload, schemas3) =>
            .ok (schemas3, buildChannel m subPayload (some payload),
              { method := m, requestAdapter := reqAdapter, responseAdapter := some r })
        | .error e => .error (invalidReturnMsg capName r m.name e))

/-- The loop of get_schemas_and_functions over all intersect_message
methods, accumulating the schema table, the channel map and the function
map. -/
def processAll (capName : String) (fns : List Method) (schemas : Defs)
    (channels : List (String × Channel)) (fmap : List (String × FunctionMetadata)) :
    Except String (Defs × List (String × Channel) × List (String × FunctionMetadata)) :=
  match fns with
  | [] => .ok (schemas, channels, fmap)
  | m :: rest =>
    match process_message_fn capName m schemas with
    | .error e => .error e
    | .ok (schemas2, chan, meta) =>
        processAll capName rest schemas2 (channels ++ [(m.name, chan)]) (fmap ++ [(m.name, meta)])

/-- _status_fn_schema from schema.py: reject more than one status function;
warn (non-fatally) and return the empty status triple when there is none;
otherwise validate the signature of the single status function and compile
its return annotation through merge_schema_definitions.  A return
annotation that is the literal None is not special-cased here: it flows into
`TypeAdapter(None)` and produces the null schema.  The updated schema table
and the accumulated warnings are returned alongside. -/
def status_fn_schema (cap : Capability) (schemas : Defs) :
    Except String (StatusTriple × Defs × List String) :=
  let status_fns := get_functions_status cap
  if status_fns.length > 1 then
    .error (statusDupMsg cap.name)
  else
    match status_fns with
    | [] =>
        .ok (StatusTriple.mk none none Ann.noneT, schemas, [statusAbsentMsg cap.name])
    | m :: _ =>
      if !(m.params.length = 1) then
        .error (statusParamsMsg cap.name m.name)
      else
        match m.returnAnn with
        | .empty => .error (statusReturnMsg cap.name m.name)
        | .noneA =>
          (match merge_schema_definitions Ann.noneT schemas with
          | .ok (j, schemas2) =>
              .ok (StatusTriple.mk (some m.name) (some j) Ann.noneT, schemas2, [])
          | .error e => .error (statusInvalidMsg cap.name Ann.noneT m.name e))
        | .typ r =>
          (match merge_schema_definitions r schemas with
          | .ok (j, schemas2) =>
              .ok (StatusTriple.mk (some m.name) (some j) r, schemas2, [])
          | .error e => .error (statusInvalidMsg cap.name r m.name e))

/-- get_schemas_and_functions from schema.py, the sole entry point of the
introspector: process every intersect_message method, reject a capability in
which none were found, then compute the status function schema (which may
add further definitions to the shared schema table) and return all
artifacts. -/
def get_schemas_and_functions (cap : Capability) : Except String IntrospectionResult :=
  match processAll cap.name (get_functions_message cap) [] [] [] with
  | .error e => .error e
  | .ok (schemas, channels, function_map) =>
    if function_map.isEmpty then
      .error (noEntrypointsMsg cap.name)
    else
      match status_fn_schema cap schemas with
      | .error e => .error e
      | .ok (st, schemas2, warns) =>
          .ok { schemas := schemas2, status := st, channels := channels,
                function_map := function_map, warnings := warns }

/-- IntersectDataHandler from annotations.py (the second member is called
MINIO there; the trailing underscore avoids a lexical restriction of this
development). -/
inductive IntersectDataHandler where
  | MESSAGE
  | MINIO_
deriving Repr

/-- The IntEnum value of an IntersectDataHandler member. -/
def IntersectDataHandler.value : IntersectDataHandler → Nat
  | .MESSAGE => 0
  | .MINIO_ => 1

/-- IntersectMimeType from annotations.py. -/
inductive IntersectMimeType where
  | JSON
  | STRING
  | BINARY
deriving Repr

/-- The MIME string value of an IntersectMimeType member. -/
def IntersectMimeType.value : IntersectMimeType → String
  | .JSON => "application/json"
  | .STRING => "text/plain"
  | .BINARY => "application/octet-string"

/-- A value stored in a function attribute by the decorators. -/
inductive AttrValue where
  | boolV : Bool → AttrValue
  | strV : String → AttrValue
  | natV : Nat → AttrValue
  | setV : List String → AttrValue
deriving Repr

/-- A Python callable together with its attribute dictionary.  The call
behavior is a function from an argument tuple to either a raised exception
(`Except.error`) or a returned value (`Except.ok`). -/
structure PyCallable (args err res : Type) where
  call : args → Except err res
  attrs : List (String × AttrValue)

/-- Modelled from the spec: the attribute-name constants of
src/intersect_sdk/_internal/constants.py (the file is not among the provided
sources; only the names imported by annotations.py and schema.py are known,
so representative distinct string values are used). -/
def BASE_ATTR : String := "__intersect_sdk_base_attr__"

def BASE_STATUS_ATTR : String := "__intersect_sdk_base_status_attr__"

def REQUEST_CONTENT : String := "__intersect_sdk_request_content__"

def RESPONSE_CONTENT : String := "__intersect_sdk_response_content__"

def RESPONSE_DATA : String := "__intersect_sdk_response_data__"

def STRICT_VALIDATION : String := "__intersect_sdk_strict_validation__"

def SHUTDOWN_KEYS : String := "__intersect_sdk_shutdown_keys__"

/-- Python `setattr(f, k, v)` on the attribute dictionary. -/
def setAttr (l : List (String × AttrValue)) (k : String) (v : AttrValue) :
    List (String × AttrValue) :=
  match l with
  | [] => [(k, v)]
  | (k2, v2) :: rest => if k2 = k then (k, v) :: rest else (k2, v2) :: setAttr rest k v

/-- intersect_message from annotations.py: the returned decorator wraps the
function in a `wrapper` forwarding every call unchanged
(`return func(args, kwargs)`), copies the wrapped function through
functools.wraps, and attaches the six metadata attributes. -/
def intersect_message {args err res : Type} (ignore_keys : Option (List String))
    (request_content_type : IntersectMimeType)
    (response_data_transfer_handler : IntersectDataHandler)
    (response_content_type : IntersectMimeType)
    (strict_request_validation : Bool)
    (func : PyCallable args err res) : PyCallable args err res :=
  { call := fun a => func.call a,
    attrs :=
      setAttr (setAttr (setAttr (setAttr (setAttr (setAttr func.attrs
        BASE_ATTR (AttrValue.boolV true))
        REQUEST_CONTENT (AttrValue.strV request_content_type.value))
        RESPONSE_CONTENT (AttrValue.strV response_content_type.value))
        RESPONSE_DATA (AttrValue.natV response_data_transfer_handler.value))
        STRICT_VALIDATION (AttrValue.boolV strict_request_validation))
        SHUTDOWN_KEYS (AttrValue.setV (match ignore_keys with
          | some ks => ks
          | none => [])) }

/-- intersect_status from annotations.py: the returned decorator wraps the
function in a forwarding `wrapper` and attaches the status marker
attribute. -/
def intersect_status {args err res : Type} (func : PyCallable args err res) :
    PyCallable args err res :=
  { call := fun a => func.call a,
    attrs := setAttr func.attrs BASE_STATUS_ATTR (AttrValue.boolV true) }

/-- Substring test on character lists. -/
def listContainsSub (hay needle : List Char) : Bool :=
  match hay with
  | [] => needle.isEmpty
  | _ :: t => needle.isPrefixOf hay || listContainsSub t needle

/-- Substring test on strings (used to state that a diagnostic message
contains a given fragment). -/
def strContains (hay needle : String) : Bool :=
  listContainsSub hay.data needle.data

/-- Boolean error test for the introspection result. -/
def exceptErr {err res : Type} : Except err res → Bool
  | .error _ => true
  | .ok _ => false

/-- Bool test of whether a type graph contains an unconstrained Any/object
leaf at any nesting depth.  The traversed positions are the ones the claim
enumerates: the root, sequence elements, mapping keys and values, tuple
members, record fields, alias bodies and the generator yield type (the send
and return types of a generator are ignored by the schema compiler). -/
def hasAnyLeafB : Ann → Bool
  | .anyT => true
  | .objT => true
  | .noneT => false
  | .intT => false
  | .strT => false
  | .boolT => false
  | .floatT => false
  | .listT none => false
  | .listT (some a) => hasAnyLeafB a
  | .setT none => false
  | .setT (some a) => hasAnyLeafB a
  | .frozensetT none => false
  | .frozensetT (some a) => hasAnyLeafB a
  | .tuplePT ms => goL ms
  | .tupleVT none => false
  | .tupleVT (some a) => hasAnyLeafB a
  | .dictT none => false
  | .dictT (some (k, v)) => hasAnyLeafB k || hasAnyLeafB v
  | .generatorT y _ _ => hasAnyLeafB y
  | .modelT _ fs => goF fs
  | .dataclassT _ fs => goF fs
  | .typedDictT _ fs => goF fs
  | .namedTupleT _ fs => goF fs
  | .enumT _ _ => false
  | .literalT _ => false
  | .aliasT _ a => hasAnyLeafB a
where
  goL : List Ann → Bool
    | [] => false
    | a :: r => hasAnyLeafB a || goL r
  goF : List (String × Ann) → Bool
    | [] => false
    | (_, a) :: r => hasAnyLeafB a || goF r

/-- Bool marker of core schemas whose JSON schema generation through
`GenerateTypedJsonSchema` certainly fails: an explicit any core schema, a
container with an elided component, a mapping whose key schema is not the
str schema, or a composite with such a core schema in a generated
position. -/
def badCoreB : CoreSchema → Bool
  | .anyC => true
  | .noneC => false
  | .intC => false
  | .strC => false
  | .boolC => false
  | .floatC => false
  | .listC none => true
  | .listC (some c) => badCoreB c
  | .setC none => true
  | .setC (some c) => badCoreB c
  | .frozensetC none => true
  | .frozensetC (some c) => badCoreB c
  | .tuplePC ms => goL ms
  | .tupleVC none => true
  | .tupleVC (some c) => badCoreB c
  | .dictC keys vals =>
      (match keys with
      | some .strC =>
        (match vals with
        | none => true
        | some v => badCoreB v)
      | _ => true)
  | .genC none => true
  | .genC (some c) => badCoreB c
  | .modelC _ fs => goF fs
  | .dataclassC _ fs => goF fs
  | .typedDictC _ fs => goF fs
  | .namedTupleC _ fs => goF fs
  | .enumC _ _ => false
  | .literalC _ => false
  | .aliasC _ c => badCoreB c
where
  goL : List CoreSchema → Bool
    | [] => false
    | c :: r => badCoreB c || goL r
  goF : List (String × CoreSchema) → Bool
    | [] => false
    | (_, c) :: r => badCoreB c || goF r

/-- Formalisation of "the entry point satisfies the signature and
type-shape constraints" (spec sections 4.2 and 4.3): the signature carries
the receiver plus at most one parameter, the parameter (if any) and the
return slot carry annotations, and every annotated type passes the strict
schema compiler. -/
def methodOkB (m : Method) : Bool :=
  (decide (1 ≤ m.params.length) && decide (m.params.length ≤ 2)) &&
  (match m.params with
   | [_, p] =>
     (match p.ann with
      | AnnState.empty => false
      | AnnState.noneA => true
      | AnnState.typ a => !(exceptErr (genTop (toCore a))))
   | _ => true) &&
  (match m.returnAnn with
   | AnnState.empty => false
   | AnnState.noneA => true
   | AnnState.typ a => !(exceptErr (genTop (toCore a))))

/-- The request adapter that get_schemas_and_functions stores for a method:
the adapter of the annotation of the single non-receiver parameter, absent
when the parameter is missing or annotated None. -/
def reqAdOf (m : Method) : Option Ann :=
  match m.params with
  | [_, p] =>
    (match p.ann with
     | AnnState.typ a => some a
     | _ => none)
  | _ => none

/-- The response adapter that get_schemas_and_functions stores for a
method: the adapter of the return annotation, absent when it is None. -/
def respAdOf (m : Method) : Option Ann :=
  match m.returnAnn with
  | AnnState.typ r => some r
  | _ => none

/-- Formalisation of "the status-accessor configuration is valid": no
status method, or exactly one whose signature is just the receiver and whose
annotated return type passes the strict schema compiler. -/
def statusOkB (cap : Capability) : Bool :=
  match get_functions_status cap with
  | [] => true
  | [m] =>
      decide (m.params.length = 1) &&
      (match m.returnAnn with
       | AnnState.empty => false
       | AnnState.noneA => true
       | AnnState.typ r => !(exceptErr (genTop (toCore r))))
  | _ => false

/-- A capability with a single intersect_message method taking the receiver
plus one named parameter, used to state per-type-graph properties of the
whole compilation pipeline. -/
def singleMsgCap (cname mname pname : String) (p r : AnnState) : Capability :=
  Capability.mk cname
    [Method.mk mname true false
      [Param.mk ("self") AnnState.empty false, Param.mk pname p false] r none
      ("application/json") ("application/json")]

/-- A capability with a single intersect_message method taking only the
receiver. -/
def returnMsgCap (cname mname : String) (r : AnnState) : Capability :=
  Capability.mk cname
    [Method.mk mname true false [Param.mk ("self") AnnState.empty false] r none
      ("application/json") ("application/json")]

def capNoEntry : Capability :=
  Capability.mk ("MissingIntersectMessage")
    [Method.mk ("do_something") false false
      [Param.mk ("self") AnnState.empty false, Param.mk ("one") (AnnState.typ Ann.intT) false]
      (AnnState.typ Ann.intT) none ("application/json") ("application/json")]

def statusMethodA : Method :=
  Method.mk ("status_one") false true [Param.mk ("self") AnnState.empty false]
    (AnnState.typ Ann.intT) none ("application/json") ("application/json")

def statusMethodB : Method :=
  Method.mk ("status_two") false true [Param.mk ("self") AnnState.empty false]
    (AnnState.typ Ann.strT) none ("application/json") ("application/json")

def validEchoMethod : Method :=
  Method.mk ("not_the_problem") true false
    [Param.mk ("self") AnnState.empty false, Param.mk ("one") (AnnState.typ Ann.intT) false]
    (AnnState.typ Ann.intT) none ("application/json") ("application/json")

def capTwoStatusNoEntry : Capability :=
  Capability.mk ("TooManyStatusNoEntry") [statusMethodA, statusMethodB]

def capOneEntryTwoStatus : Capability :=
  Capability.mk ("ValidEntryTwoStatus") [validEchoMethod, statusMethodA, statusMethodB]

def capDefaultParam : Capability :=
  Capability.mk ("DisallowDefaults")
    [Method.mk ("disallow_default_param") true false
      [Param.mk ("self") AnnState.empty false, Param.mk ("one") (AnnState.typ Ann.intT) true]
      (AnnState.typ Ann.intT) none ("application/json") ("application/json")]

/-- Python `getattr(f, k, None)` on the attribute dictionary. -/
def lookupAttr (l : List (String × AttrValue)) (k : String) : Option AttrValue :=
  match l with
  | [] => none
  | (k2, v) :: rest => if k2 = k then some v else lookupAttr rest k

theorem isPrefixOf_self_append (n t : List Char) : n.isPrefixOf (n ++ t) = true := by
  induction n with
  | nil => simp [List.isPrefixOf]
  | cons a as ih => simp [List.isPrefixOf, ih]

theorem isPrefixOf_extend (n h t : List Char) (hp : n.isPrefixOf h = true) :
    n.isPrefixOf (h ++ t) = true := by
  induction n generalizing h with
  | nil => simp [List.isPrefixOf]
  | cons a as ih =>
    cases h with
    | nil => simp [List.isPrefixOf] at hp
    | cons b hs =>
      simp only [List.isPrefixOf, Bool.and_eq_true] at hp
      simp only [List.cons_append, List.isPrefixOf, Bool.and_eq_true]
      exact ⟨hp.1, ih hs hp.2⟩

theorem lcs_nil_needle (h : List Char) : listContainsSub h [] = true := by
  cases h with
  | nil => simp [listContainsSub]
  | cons a t => simp [listContainsSub, List.isPrefixOf]

theorem lcs_self (n t : List Char) : listContainsSub (n ++ t) n = true := by
  cases n with
  | nil => exact lcs_nil_needle t
  | cons a as =>
    simp only [List.cons_append, listContainsSub]
    have := isPrefixOf_self_append (a :: as) t
    simp only [List.cons_append] at this
    simp [this]

theorem lcs_append_left (pre hay n : List Char) (hc : listContainsSub hay n = true) :
    listContainsSub (pre ++ hay) n = true := by
  induction pre with
  | nil => simpa using hc
  | cons p ps ih =>
    simp only [List.cons_append, listContainsSub]
    simp [ih]

theorem lcs_append_right (hay t n : List Char) (hc : listContainsSub hay n = true) :
    listContainsSub (hay ++ t) n = true := by
  induction hay with
  | nil =>
    simp only [listContainsSub] at hc
    cases n with
    | nil => simp [lcs_nil_needle]
    | cons b bs => simp [List.isEmpty] at hc
  | cons a as ih =>
    simp only [listContainsSub, Bool.or_eq_true] at hc
    rcases hc with hp | hrest
    · have := isPrefixOf_extend n (a :: as) t hp
      simp only [List.cons_append, listContainsSub]
      simp only [List.cons_append] at this
      simp [this]
    · simp only [List.cons_append, listContainsSub]
      simp [ih hrest]

theorem strContains_refl (s : String) : strContains s s = true := by
  have := lcs_self s.data []
  simpa [strContains] using this

theorem strContains_append_left (l r n : String) (hc : strContains l n = true) :
    strContains (l ++ r) n = true := by
  simp only [strContains, String.data_append]
  exact lcs_append_right l.data r.data n.data hc

theorem strContains_append_right (l r n : String) (hc : strContains r n = true) :
    strContains (l ++ r) n = true := by
  simp only [strContains, String.data_append]
  exact lcs_append_left l.data r.data n.data hc

mutual

/-- Soundness of the bad-core marker: JSON schema generation fails on every
marked core schema (mutually with the item-list and field-list versions). -/
theorem badCore_gen_err : ∀ c : CoreSchema, badCoreB c = true → exceptErr (generate_inner c) = true
  | .anyC, _ => rfl
  | .noneC, h => nomatch h
  | .intC, h => nomatch h
  | .strC, h => nomatch h
  | .boolC, h => nomatch h
  | .floatC, h => nomatch h
  | .listC none, _ => rfl
  | .listC (some c), h => by
      have ih := badCore_gen_err c (by simpa [badCoreB] using h)
      cases hg : generate_inner c with
      | error e => simp [generate_inner, hg, exceptErr, Bind.bind, Except.bind]
      | ok pr => rw [hg] at ih; simp [exceptErr] at ih
  | .setC none, _ => rfl
  | .setC (some c), h => by
      have ih := badCore_gen_err c (by simpa [badCoreB] using h)
      cases hg : generate_inner c with
      | error e => simp [generate_inner, hg, exceptErr, Bind.bind, Except.bind]
      | ok pr => rw [hg] at ih; simp [exceptErr] at ih
  | .frozensetC none, _ => rfl
  | .frozensetC (some c), h => by
      have ih := badCore_gen_err c (by simpa [badCoreB] using h)
      cases hg : generate_inner c with
      | error e => simp [generate_inner, hg, exceptErr, Bind.bind, Except.bind]
      | ok pr => rw [hg] at ih; simp [exceptErr] at ih
  | .tuplePC ms, h => by
      have ih := badCore_items_err ms (by simpa [badCoreB] using h)
      cases hg : genItems ms with
      | error e => simp [generate_inner, hg, exceptErr, Bind.bind, Except.bind]
      | ok pr => rw [hg] at ih; simp [exceptErr] at ih
  | .tupleVC none, _ => rfl
  | .tupleVC (some c), h => by
      have ih := badCore_gen_err c (by simpa [badCoreB] using h)
      cases hg : generate_inner c with
      | error e => simp [generate_inner, hg, exceptErr, Bind.bind, Except.bind]
      | ok pr => rw [hg] at ih; simp [exceptErr] at ih
  | .genC none, _ => rfl
  | .genC (some c), h => by
      have ih := badCore_gen_err c (by simpa [badCoreB] using h)
      cases hg : generate_inner c with
      | error e => simp [generate_inner, hg, exceptErr, Bind.bind, Except.bind]
      | ok pr => rw [hg] at ih; simp [exceptErr] at ih
  | .dictC keys vals, h => by
      cases keys with
      | none => rfl
      | some k =>
        cases k <;> try rfl
        case strC =>
        cases vals with
        | none => rfl
        | some v =>
          have ih := badCore_gen_err v (by simpa [badCoreB] using h)
          cases hg : generate_inner v with
          | error e => simp [generate_inner, hg, exceptErr, Bind.bind, Except.bind]
          | ok pr => rw [hg] at ih; simp [exceptErr] at ih
  | .modelC n fs, h => by
      have ih := badCore_fields_err fs (by simpa [badCoreB] using h)
      cases hg : genFields fs with
      | error e => simp [generate_inner, hg, exceptErr, Bind.bind, Except.bind]
      | ok pr => rw [hg] at ih; simp [exceptErr] at ih
  | .dataclassC n fs, h => by
      have ih := badCore_fields_err fs (by simpa [badCoreB] using h)
      cases hg : genFields fs with
      | error e => simp [generate_inner, hg, exceptErr, Bind.bind, Except.bind]
      | ok pr => rw [hg] at ih; simp [exceptErr] at ih
  | .typedDictC n fs, h => by
      have ih := badCore_fields_err fs (by simpa [badCoreB] using h)
      cases hg : genFields fs with
      | error e => simp [generate_inner, hg, exceptErr, Bind.bind, Except.bind]
      | ok pr => rw [hg] at ih; simp [exceptErr] at ih
  | .namedTupleC n fs, h => by
      cases fs with
      | nil => exact nomatch h
      | cons f r =>
        have ih := badCore_fields_err (f :: r) (by simpa [badCoreB] using h)
        cases hg : genFields (f :: r) with
        | error e => simp [generate_inner, hg, exceptErr, Bind.bind, Except.bind]
        | ok pr => rw [hg] at ih; simp [exceptErr] at ih
  | .enumC n vs, h => nomatch h
  | .literalC vs, h => nomatch h
  | .aliasC n c, h => by
      have ih := badCore_gen_err c (by simpa [badCoreB] using h)
      cases hg : generate_inner c with
      | error e => simp [generate_inner, hg, exceptErr, Bind.bind, Except.bind]
      | ok pr => rw [hg] at ih; simp [exceptErr] at ih

theorem badCore_items_err : ∀ ms : List CoreSchema, badCoreB.goL ms = true → exceptErr (genItems ms) = true
  | c :: r, h => by
      cases hg : generate_inner c with
      | error e => simp [genItems, hg, exceptErr, Bind.bind, Except.bind]
      | ok pr =>
        have hc : badCoreB c = false := by
          cases hb : badCoreB c with
          | true => have := badCore_gen_err c hb; rw [hg] at this; simp [exceptErr] at this
          | false => rfl
        have hr : badCoreB.goL r = true := by
          simp only [badCoreB.goL, hc, Bool.false_or] at h; exact h
        have ih := badCore_items_err r hr
        cases hg2 : genItems r with
        | error e => simp [genItems, hg, hg2, exceptErr, Bind.bind, Except.bind]
        | ok pr2 => rw [hg2] at ih; simp [exceptErr] at ih

theorem badCore_fields_err : ∀ fs : List (String × CoreSchema), badCoreB.goF fs = true → exceptErr (genFields fs) = true
  | (k, c) :: r, h => by
      cases hg : generate_inner c with
      | error e => simp [genFields, hg, exceptErr, Bind.bind, Except.bind]
      | ok pr =>
        have hc : badCoreB c = false := by
          cases hb : badCoreB c with
          | true => have := badCore_gen_err c hb; rw [hg] at this; simp [exceptErr] at this
          | false => rfl
        have hr : badCoreB.goF r = true := by
          simp only [badCoreB.goF, hc, Bool.false_or] at h; exact h
        have ih := badCore_fields_err r hr
        cases hg2 : genFields r with
        | error e => simp [genFields, hg, hg2, exceptErr, Bind.bind, Except.bind]
        | ok pr2 => rw [hg2] at ih; simp [exceptErr] at ih

end

/-- The str core schema arises only from the str annotation (used for the
mapping key check). -/
theorem toCore_strC : ∀ k : Ann, toCore k = CoreSchema.strC → k = Ann.strT := by
  intro k h
  cases k with
  | strT => rfl
  | anyT => simp [toCore] at h
  | objT => simp [toCore] at h
  | noneT => simp [toCore] at h
  | intT => simp [toCore] at h
  | boolT => simp [toCore] at h
  | floatT => simp [toCore] at h
  | listT x => cases x <;> simp [toCore] at h
  | setT x => cases x <;> simp [toCore] at h
  | frozensetT x => cases x <;> simp [toCore] at h
  | tuplePT ms => simp [toCore] at h
  | tupleVT x => cases x <;> simp [toCore] at h
  | dictT x =>
    cases x with
    | none => simp [toCore] at h
    | some kv => obtain ⟨a, b⟩ := kv; simp [toCore] at h
  | generatorT y s r => simp [toCore] at h
  | modelT n fs => simp [toCore] at h
  | dataclassT n fs => simp [toCore] at h
  | typedDictT n fs => simp [toCore] at h
  | namedTupleT n fs => simp [toCore] at h
  | enumT n vs => simp [toCore] at h
  | literalT vs => simp [toCore] at h
  | aliasT n a => simp [toCore] at h

mutual

/-- Transfer of the any-leaf predicate through the pydantic core lowering:
the core schema of a type graph with an Any/object leaf is always marked by
the bad-core predicate (either the leaf survives as an explicit any core
schema, or its elision leaves a container without a component, or a mapping
key fails the str check). -/
theorem anyLeaf_badCore : ∀ a : Ann, hasAnyLeafB a = true → badCoreB (toCore a) = true
  | .anyT, _ => rfl
  | .objT, _ => rfl
  | .noneT, h => nomatch h
  | .intT, h => nomatch h
  | .strT, h => nomatch h
  | .boolT, h => nomatch h
  | .floatT, h => nomatch h
  | .listT none, h => nomatch h
  | .listT (some b), h => by
      have hb : hasAnyLeafB b = true := by simpa [hasAnyLeafB] using h
      by_cases ha : isAnyT b = true
      · simp [toCore, elideAny, ha, badCoreB]
      · have ih := anyLeaf_badCore b hb
        simp [toCore, elideAny, ha, badCoreB, ih]
  | .setT none, h => nomatch h
  | .setT (some b), h => by
      have hb : hasAnyLeafB b = true := by simpa [hasAnyLeafB] using h
      by_cases ha : isAnyT b = true
      · simp [toCore, elideAny, ha, badCoreB]
      · have ih := anyLeaf_badCore b hb
        simp [toCore, elideAny, ha, badCoreB, ih]
  | .frozensetT none, h => nomatch h
  | .frozensetT (some b), h => by
      have hb : hasAnyLeafB b = true := by simpa [hasAnyLeafB] using h
      by_cases ha : isAnyT b = true
      · simp [toCore, elideAny, ha, badCoreB]
      · have ih := anyLeaf_badCore b hb
        simp [toCore, elideAny, ha, badCoreB, ih]
  | .tuplePT ms, h => by
      have ih := anyLeaf_badCore_list ms (by simpa [hasAnyLeafB] using h)
      simpa [toCore, badCoreB] using ih
  | .tupleVT none, h => nomatch h
  | .tupleVT (some b), h => by
      have hb : hasAnyLeafB b = true := by simpa [hasAnyLeafB] using h
      by_cases ha : isAnyT b = true
      · simp [toCore, elideAny, ha, badCoreB]
      · have ih := anyLeaf_badCore b hb
        simp [toCore, elideAny, ha, badCoreB, ih]
  | .dictT none, h => nomatch h
  | .dictT (some (k, v)), h => by
      by_cases hk : isAnyT k = true
      · simp [toCore, elideAny, hk, badCoreB]
      · simp only [toCore, elideAny, hk, if_false, Bool.false_eq_true, ite_false]
        cases hc : toCore k <;> try (simp [badCoreB])
        have hk2 : k = Ann.strT := toCore_strC k hc
        subst hk2
        have hv : hasAnyLeafB v = true := by simpa [hasAnyLeafB] using h
        by_cases hav : isAnyT v = true
        · simp [elideAny, hav, badCoreB]
        · have ih := anyLeaf_badCore v hv
          simp [elideAny, hav, badCoreB, ih]
  | .generatorT y s r, h => by
      have ih := anyLeaf_badCore y (by simpa [hasAnyLeafB] using h)
      simpa [toCore, badCoreB] using ih
  | .modelT n fs, h => by
      have ih := anyLeaf_badCore_fields fs (by simpa [hasAnyLeafB] using h)
      simpa [toCore, badCoreB] using ih
  | .dataclassT n fs, h => by
      have ih := anyLeaf_badCore_fields fs (by simpa [hasAnyLeafB] using h)
      simpa [toCore, badCoreB] using ih
  | .typedDictT n fs, h => by
      have ih := anyLeaf_badCore_fields fs (by simpa [hasAnyLeafB] using h)
      simpa [toCore, badCoreB] using ih
  | .namedTupleT n fs, h => by
      have ih := anyLeaf_badCore_fields fs (by simpa [hasAnyLeafB] using h)
      simpa [toCore, badCoreB] using ih
  | .enumT n vs, h => nomatch h
  | .literalT vs, h => nomatch h
  | .aliasT n b, h => by
      have ih := anyLeaf_badCore b (by simpa [hasAnyLeafB] using h)
      simpa [toCore, badCoreB] using ih

theorem anyLeaf_badCore_list : ∀ ms : List Ann, hasAnyLeafB.goL ms = true → badCoreB.goL (toCoreList ms) = true
  | a :: r, h => by
      simp only [hasAnyLeafB.goL, Bool.or_eq_true] at h
      rcases h with ha | hr
      · have ih := anyLeaf_badCore a ha
        simp [toCoreList, badCoreB.goL, ih]
      · have ih := anyLeaf_badCore_list r hr
        simp [toCoreList, badCoreB.goL, ih]

theorem anyLeaf_badCore_fields : ∀ fs : List (String × Ann), hasAnyLeafB.goF fs = true → badCoreB.goF (toCoreFields fs) = true
  | (k, a) :: r, h => by
      simp only [hasAnyLeafB.goF, Bool.or_eq_true] at h
      rcases h with ha | hr
      · have ih := anyLeaf_badCore a ha
        simp [toCoreFields, badCoreB.goF, ih]
      · have ih := anyLeaf_badCore_fields r hr
        simp [toCoreFields, badCoreB.goF, ih]

end

/-- Soundness of the bad-core marker for the top-level generation. -/
theorem badCore_genTop_err : ∀ c : CoreSchema, badCoreB c = true → exceptErr (genTop c) = true
  | .modelC n fs, h => by
      have ih := badCore_fields_err fs (by simpa [badCoreB] using h)
      cases hg : genFields fs with
      | error e => simp [genTop, hg, exceptErr, Bind.bind, Except.bind]
      | ok pr => rw [hg] at ih; simp [exceptErr] at ih
  | .dataclassC n fs, h => by
      have ih := badCore_fields_err fs (by simpa [badCoreB] using h)
      cases hg : genFields fs with
      | error e => simp [genTop, hg, exceptErr, Bind.bind, Except.bind]
      | ok pr => rw [hg] at ih; simp [exceptErr] at ih
  | .typedDictC n fs, h => by
      have ih := badCore_fields_err fs (by simpa [badCoreB] using h)
      cases hg : genFields fs with
      | error e => simp [genTop, hg, exceptErr, Bind.bind, Except.bind]
      | ok pr => rw [hg] at ih; simp [exceptErr] at ih
  | .enumC n vs, h => nomatch h
  | .aliasC n c, h => by
      have ih := badCore_gen_err c (by simpa [badCoreB] using h)
      simpa [genTop] using ih
  | .anyC, h => badCore_gen_err .anyC h
  | .noneC, h => nomatch h
  | .intC, h => nomatch h
  | .strC, h => nomatch h
  | .boolC, h => nomatch h
  | .floatC, h => nomatch h
  | .listC x, h => badCore_gen_err (.listC x) h
  | .setC x, h => badCore_gen_err (.setC x) h
  | .frozensetC x, h => badCore_gen_err (.frozensetC x) h
  | .tuplePC ms, h => badCore_gen_err (.tuplePC ms) h
  | .tupleVC x, h => badCore_gen_err (.tupleVC x) h
  | .dictC a b, h => badCore_gen_err (.dictC a b) h
  | .genC x, h => badCore_gen_err (.genC x) h
  | .namedTupleC n fs, h => badCore_gen_err (.namedTupleC n fs) h
  | .literalC vs, h => nomatch h

/-- A type graph with an Any/object leaf always fails top-level schema
generation. -/
theorem anyLeaf_genTop_err (a : Ann) (h : hasAnyLeafB a = true) :
    exceptErr (genTop (toCore a)) = true :=
  badCore_genTop_err (toCore a) (anyLeaf_badCore a h)

/-- merge_schema_definitions propagates a generation failure unchanged. -/
theorem merge_err_of_genTop (a : Ann) (s : Defs) (e : String)
    (h : genTop (toCore a) = .error e) :
    merge_schema_definitions a s = .error e := by
  simp [merge_schema_definitions, h]

/-- merge_schema_definitions succeeds on every annotation whose top-level
schema generation succeeds, whatever the incoming schema table. -/
theorem merge_ok_of_genTop (a : Ann) (s : Defs) (h : exceptErr (genTop (toCore a)) = false) :
    ∃ r s2, merge_schema_definitions a s = .ok (r, s2) := by
  cases hg : genTop (toCore a) with
  | error e => rw [hg] at h; simp [exceptErr] at h
  | ok pr =>
    obtain ⟨schema, defs⟩ := pr
    simp only [merge_schema_definitions, hg]
    repeat' split
    all_goals exact ⟨_, _, rfl⟩

/-- The per-method loop body succeeds on every method satisfying the
signature and type-shape constraints and stores the method together with its
request and response adapters. -/
theorem process_ok (capName : String) (m : Method) (hok : methodOkB m = true) (s : Defs) :
    ∃ s2 chan, process_message_fn capName m s =
      .ok (s2, chan, FunctionMetadata.mk m (reqAdOf m) (respAdOf m)) := by
  simp only [methodOkB, Bool.and_eq_true, decide_eq_true_eq] at hok
  obtain ⟨⟨⟨hlo, hhi⟩, hreq⟩, hret⟩ := hok
  rcases hp : m.params with _ | ⟨slf, _ | ⟨p, _ | ⟨q, rest⟩⟩⟩
  · rw [hp] at hlo; simp at hlo
  · -- one parameter: no request processing
    have e1 : reqAdOf m = none := by simp [reqAdOf, hp]
    rcases hr : m.returnAnn with _ | _ | r
    · rw [hr] at hret; simp at hret
    · have e2 : respAdOf m = none := by simp [respAdOf, hr]
      rw [e1, e2]
      refine ⟨s, buildChannel m none none, ?_⟩
      simp [process_message_fn, hp, hr]
    · rw [hr] at hret
      simp only at hret
      obtain ⟨pay, s3, hm⟩ := merge_ok_of_genTop r s (by simpa using hret)
      have e2 : respAdOf m = some r := by simp [respAdOf, hr]
      rw [e1, e2]
      refine ⟨s3, buildChannel m none (some pay), ?_⟩
      simp [process_message_fn, hp, hr, hm]
  · -- two parameters: request processing on p
    have hrequest := hreq
    rw [hp] at hrequest
    simp only at hrequest
    rcases hq : p.ann with _ | _ | a
    · rw [hq] at hrequest; simp at hrequest
    · have e1 : reqAdOf m = none := by simp [reqAdOf, hp, hq]
      rcases hr : m.returnAnn with _ | _ | r
      · rw [hr] at hret; simp at hret
      · have e2 : respAdOf m = none := by simp [respAdOf, hr]
        rw [e1, e2]
        refine ⟨s, buildChannel m none none, ?_⟩
        simp [process_message_fn, hp, hr, hq]
      · rw [hr] at hret
        simp only at hret
        obtain ⟨pay, s3, hm⟩ := merge_ok_of_genTop r s (by simpa using hret)
        have e2 : respAdOf m = some r := by simp [respAdOf, hr]
        rw [e1, e2]
        refine ⟨s3, buildChannel m none (some pay), ?_⟩
        simp [process_message_fn, hp, hr, hq, hm]
    · rw [hq] at hrequest
      simp only at hrequest
      obtain ⟨pay1, s2, hm1⟩ := merge_ok_of_genTop a s (by simpa using hrequest)
      have e1 : reqAdOf m = some a := by simp [reqAdOf, hp, hq]
      rcases hr : m.returnAnn with _ | _ | r
      · rw [hr] at hret; simp at hret
      · have e2 : respAdOf m = none := by simp [respAdOf, hr]
        rw [e1, e2]
        refine ⟨s2, buildChannel m (some pay1) none, ?_⟩
        simp [process_message_fn, hp, hr, hq, hm1]
      · rw [hr] at hret
        simp only at hret
        obtain ⟨pay2, s3, hm2⟩ := merge_ok_of_genTop r s2 (by simpa using hret)
        have e2 : respAdOf m = some r := by simp [respAdOf, hr]
        rw [e1, e2]
        refine ⟨s3, buildChannel m (some pay1) (some pay2), ?_⟩
        simp [process_message_fn, hp, hr, hq, hm1, hm2]
  · rw [hp] at hhi; simp at hhi

/-- The introspection loop succeeds on a list of valid methods and appends
one channel entry and one function-map entry per method, keyed by the method
name. -/
theorem processAll_ok (capName : String) (fns : List Method)
    (h : ∀ m ∈ fns, methodOkB m = true) :
    ∀ (s : Defs) (ch : List (String × Channel)) (fm : List (String × FunctionMetadata)),
    ∃ s2 chans, processAll capName fns s ch fm =
      .ok (s2, ch ++ chans,
        fm ++ fns.map (fun m => (m.name, FunctionMetadata.mk m (reqAdOf m) (respAdOf m))))
      ∧ chans.map Prod.fst = fns.map Method.name := by
  induction fns with
  | nil => intro s ch fm; exact ⟨s, [], by simp [processAll], by simp⟩
  | cons m rest ih =>
    intro s ch fm
    have hm := h m (List.mem_cons_self m rest)
    obtain ⟨s2, chan, hp⟩ := process_ok capName m hm s
    have hrest : ∀ m2 ∈ rest, methodOkB m2 = true := fun m2 hm2 => h m2 (List.mem_cons_of_mem m hm2)
    obtain ⟨s3, chans, hall, hnames⟩ := ih hrest s2 (ch ++ [(m.name, chan)])
      (fm ++ [(m.name, FunctionMetadata.mk m (reqAdOf m) (respAdOf m))])
    refine ⟨s3, (m.name, chan) :: chans, ?_, ?_⟩
    · simp only [processAll, hp]
      rw [hall]
      simp
    · simp [hnames]

/-- With no status-annotated method, _status_fn_schema succeeds with the
empty status triple and logs exactly the absence warning. -/
theorem status_none (cap : Capability) (h : get_functions_status cap = []) (s : Defs) :
    status_fn_schema cap s =
      .ok (StatusTriple.mk none none Ann.noneT, s, [statusAbsentMsg cap.name]) := by
  simp [status_fn_schema, h]

/-- _status_fn_schema succeeds on every capability with a valid
status-accessor configuration. -/
theorem status_ok_of (cap : Capability) (h : statusOkB cap = true) (s : Defs) :
    ∃ trip s2 w, status_fn_schema cap s = .ok (trip, s2, w) := by
  unfold statusOkB at h
  rcases hs : get_functions_status cap with _ | ⟨m, _ | ⟨m2, rest⟩⟩
  · exact ⟨_, _, _, status_none cap hs s⟩
  · rw [hs] at h
    simp only [Bool.and_eq_true, decide_eq_true_eq] at h
    obtain ⟨hlen, hret⟩ := h
    rcases hr : m.returnAnn with _ | _ | r
    · rw [hr] at hret; simp at hret
    · obtain ⟨j, s2, hm⟩ := merge_ok_of_genTop Ann.noneT s (by simp [genTop, generate_inner, toCore, exceptErr])
      refine ⟨StatusTriple.mk (some m.name) (some j) Ann.noneT, s2, [], ?_⟩
      simp [status_fn_schema, hs, hlen, hr, hm]
    · rw [hr] at hret
      simp only at hret
      obtain ⟨j, s2, hm⟩ := merge_ok_of_genTop r s (by simpa using hret)
      refine ⟨StatusTriple.mk (some m.name) (some j) r, s2, [], ?_⟩
      simp [status_fn_schema, hs, hlen, hr, hm]
  · rw [hs] at h; simp at h

/-- get_schemas_and_functions succeeds on every capability with at least
one entry point when all entry points and the status configuration are
valid, and the produced function map binds exactly the annotated entry
points. -/
theorem compile_ok (cap : Capability)
    (h1 : get_functions_message cap ≠ [])
    (h2 : ∀ m ∈ get_functions_message cap, methodOkB m = true)
    (h3 : statusOkB cap = true) :
    ∃ res, get_schemas_and_functions cap = .ok res ∧
      res.function_map = (get_functions_message cap).map
        (fun m => (m.name, FunctionMetadata.mk m (reqAdOf m) (respAdOf m))) ∧
      res.channels.map Prod.fst = (get_functions_message cap).map Method.name := by
  obtain ⟨s2, chans, hall, hnames⟩ := processAll_ok cap.name (get_functions_message cap) h2 [] [] []
  obtain ⟨trip, s3, w, hst⟩ := status_ok_of cap h3 s2
  refine ⟨IntrospectionResult.mk s3 trip chans
    ((get_functions_message cap).map
      (fun m => (m.name, FunctionMetadata.mk m (reqAdOf m) (respAdOf m)))) w, ?_, ?_, ?_⟩
  · simp only [get_schemas_and_functions, hall]
    have hne : ((get_functions_message cap).map
        (fun m => (m.name, FunctionMetadata.mk m (reqAdOf m) (respAdOf m)))).isEmpty = false := by
      cases hmm : get_functions_message cap with
      | nil => exact absurd hmm h1
      | cons x xs => simp
    simp only [List.nil_append, hne, Bool.false_eq_true, if_false, hst]
  · simp
  · simpa using hnames

/-- A schema generation failure on the parameter type surfaces as the die
diagnostic wrapping the generation message with the capability, parameter
and function context. -/
theorem singleMsgCap_param_err (cname mname pname : String) (a : Ann) (r : AnnState) (e : String)
    (h : genTop (toCore a) = .error e) :
    get_schemas_and_functions (singleMsgCap cname mname pname (AnnState.typ a) r) =
      .error (invalidParamMsg cname pname a mname e) := by
  have hm := merge_err_of_genTop a [] e h
  simp [get_schemas_and_functions, get_functions_message, singleMsgCap, processAll,
    process_message_fn, hm]

/-- A schema generation failure on the return type surfaces as the die
diagnostic wrapping the generation message with the capability and function
context. -/
theorem returnMsgCap_return_err (cname mname : String) (a : Ann) (e : String)
    (h : genTop (toCore a) = .error e) :
    get_schemas_and_functions (returnMsgCap cname mname (AnnState.typ a)) =
      .error (invalidReturnMsg cname a mname e) := by
  have hm := merge_err_of_genTop a [] e h
  simp [get_schemas_and_functions, get_functions_message, returnMsgCap, processAll,
    process_message_fn, hm]

/-- Claim C2 (amended): for every entry-point parameter or return type whose
type graph contains an unconstrained Any/object leaf at any nesting depth,
compilation fails hard through die; the failure message contains "dynamic
typing is not allowed" when the Any/object leaf itself reaches schema
generation (in particular at the root), while an Any element or value of a
list, set, frozenset or mapping is elided by pydantic and reported with that
message of that container instead. -/
theorem c2_any_leaf_compile_fails :
    (∀ (a : Ann) (cname mname pname : String), hasAnyLeafB a = true →
      exceptErr (get_schemas_and_functions
        (singleMsgCap cname mname pname (AnnState.typ a) (AnnState.typ Ann.intT))) = true) ∧
    (∀ (a : Ann) (cname mname : String), hasAnyLeafB a = true →
      exceptErr (get_schemas_and_functions (returnMsgCap cname mname (AnnState.typ a))) = true) ∧
    (∀ (a : Ann) (cname mname pname : String), a = Ann.anyT ∨ a = Ann.objT →
      ∃ e, get_schemas_and_functions
        (singleMsgCap cname mname pname (AnnState.typ a) (AnnState.typ Ann.intT)) = .error e ∧
        strContains e ("dynamic typing is not allowed") = true) := by
  refine ⟨?_, ?_, ?_⟩
  · intro a cname mname pname h
    have hg := anyLeaf_genTop_err a h
    cases he : genTop (toCore a) with
    | ok pr => rw [he] at hg; simp [exceptErr] at hg
    | error e =>
      rw [singleMsgCap_param_err cname mname pname a (AnnState.typ Ann.intT) e he]
      rfl
  · intro a cname mname h
    have hg := anyLeaf_genTop_err a h
    cases he : genTop (toCore a) with
    | ok pr => rw [he] at hg; simp [exceptErr] at hg
    | error e =>
      rw [returnMsgCap_return_err cname mname a e he]
      rfl
  · intro a cname mname pname h
    have he : genTop (toCore a) =
        .error ("Any or object : dynamic typing is not allowed for INTERSECT schemas") := by
      rcases h with rfl | rfl <;> rfl
    refine ⟨invalidParamMsg cname pname a mname
      ("Any or object : dynamic typing is not allowed for INTERSECT schemas"), ?_, ?_⟩
    · exact singleMsgCap_param_err cname mname pname a (AnnState.typ Ann.intT) _ he
    · unfold invalidParamMsg
      exact strContains_append_right _ _ _ (by decide)

/-- Claim C2, counterexample to the original statement: for the parameter
type List[Any] compilation fails, but the message is the list-specific
"list subtyping may not be dynamic in INTERSECT" diagnostic and does not
contain "dynamic typing is not allowed". -/
theorem c2_counterexample :
    hasAnyLeafB (Ann.listT (some Ann.anyT)) = true ∧
    get_schemas_and_functions (singleMsgCap ("MockAnyList") ("mock_message") ("param")
        (AnnState.typ (Ann.listT (some Ann.anyT))) (AnnState.typ Ann.intT)) =
      .error (invalidParamMsg ("MockAnyList") ("param") (Ann.listT (some Ann.anyT))
        ("mock_message") ("list subtyping may not be dynamic in INTERSECT")) ∧
    strContains (invalidParamMsg ("MockAnyList") ("param") (Ann.listT (some Ann.anyT))
        ("mock_message") ("list subtyping may not be dynamic in INTERSECT"))
      ("dynamic typing is not allowed") = false := by
  refine ⟨rfl, ?_, by decide⟩
  exact singleMsgCap_param_err _ _ _ _ _ _ rfl

/-- Claim C5: on every capability type on which scanning finds zero
annotated entry points, compilation fails hard with a message containing
"No entrypoints detected" (the claim quantifies the fragment up to letter
case) and referencing the capability name. -/
theorem c5_no_entrypoints (cap : Capability) (h : get_functions_message cap = []) :
    get_schemas_and_functions cap = .error (noEntrypointsMsg cap.name) ∧
    strContains (noEntrypointsMsg cap.name) ("No entrypoints detected") = true ∧
    strContains (noEntrypointsMsg cap.name) cap.name = true := by
  refine ⟨?_, ?_, ?_⟩
  · simp [get_schemas_and_functions, h, processAll]
  · unfold noEntrypointsMsg
    exact strContains_append_left _ _ _ (strContains_append_left _ _ _ (by decide))
  · unfold noEntrypointsMsg
    exact strContains_append_left _ _ _
      (strContains_append_right _ _ _ (strContains_refl cap.name))

/-- Witness for C5 at a capability whose only method carries no
intersect_message marker. -/
theorem c5_no_entrypoints_witness :
    get_functions_message capNoEntry = [] ∧
    get_schemas_and_functions capNoEntry =
      .error (noEntrypointsMsg ("MissingIntersectMessage")) :=
  ⟨rfl, (c5_no_entrypoints capNoEntry rfl).1⟩

/-- Claim C7 (amended): on every capability with two or more methods
marked as the status accessor, at least one annotated entry point, and all
entry points passing validation, compilation fails hard with a message
containing "should only have one function annotated" and naming the
capability. -/
theorem c7_amended (cap : Capability)
    (h1 : 1 < (get_functions_status cap).length)
    (h2 : get_functions_message cap ≠ [])
    (h3 : ∀ m ∈ get_functions_message cap, methodOkB m = true) :
    get_schemas_and_functions cap = .error (statusDupMsg cap.name) ∧
    strContains (statusDupMsg cap.name) ("should only have one function annotated") = true ∧
    strContains (statusDupMsg cap.name) cap.name = true := by
  obtain ⟨s2, chans, hall, _⟩ := processAll_ok cap.name (get_functions_message cap) h3 [] [] []
  refine ⟨?_, ?_, ?_⟩
  · simp only [get_schemas_and_functions, hall]
    have hne : ((get_functions_message cap).map
        (fun m => (m.name, FunctionMetadata.mk m (reqAdOf m) (respAdOf m)))).isEmpty = false := by
      cases hmm : get_functions_message cap with
      | nil => exact absurd hmm h2
      | cons x xs => simp
    simp only [List.nil_append, hne, Bool.false_eq_true, if_false]
    simp [status_fn_schema, h1]
  · unfold statusDupMsg
    exact strContains_append_right _ _ _ (by decide)
  · unfold statusDupMsg
    exact strContains_append_left _ _ _
      (strContains_append_right _ _ _ (strContains_refl cap.name))

/-- Claim C7, counterexample to the original statement: a capability with
two status-marked methods and no entry point fails with the
"No entrypoints detected" diagnostic instead, because the status check only
runs after entry-point processing. -/
theorem c7_counterexample :
    1 < (get_functions_status capTwoStatusNoEntry).length ∧
    get_schemas_and_functions capTwoStatusNoEntry =
      .error (noEntrypointsMsg ("TooManyStatusNoEntry")) ∧
    strContains (noEntrypointsMsg ("TooManyStatusNoEntry"))
      ("should only have one function annotated") = false := by
  refine ⟨by decide, rfl, by decide⟩

/-- Witness for C7 at a capability with one valid entry point and two
status-marked methods. -/
theorem c7_amended_witness :
    1 < (get_functions_status (Capability.mk ("TooManyStatusFunctions")
      [validEchoMethod, statusMethodA, statusMethodB])).length ∧
    get_schemas_and_functions (Capability.mk ("TooManyStatusFunctions")
      [validEchoMethod, statusMethodA, statusMethodB]) =
      .error (statusDupMsg ("TooManyStatusFunctions")) :=
  ⟨by decide, (c7_amended (Capability.mk ("TooManyStatusFunctions")
      [validEchoMethod, statusMethodA, statusMethodB]) (by decide)
      (by
        have he : get_functions_message (Capability.mk ("TooManyStatusFunctions")
          [validEchoMethod, statusMethodA, statusMethodB]) = [validEchoMethod] := rfl
        simp [he])
      (by decide)).1⟩

/-- Claim C1 (amended): for every capability type whose annotated entry
points all satisfy the signature and type-shape constraints and whose
status-accessor configuration is valid, get_schemas_and_functions succeeds
and returns a function map whose entries are exactly the annotated entry
points, each binding the callable together with its request and response
adapters; in particular its key list equals the list of annotated
entry-point names. -/
theorem c1_amended (cap : Capability)
    (h1 : get_functions_message cap ≠ [])
    (h2 : ∀ m ∈ get_functions_message cap, methodOkB m = true)
    (h3 : statusOkB cap = true) :
    ∃ res, get_schemas_and_functions cap = .ok res ∧
      res.function_map = (get_functions_message cap).map
        (fun m => (m.name, FunctionMetadata.mk m (reqAdOf m) (respAdOf m))) ∧
      res.function_map.map Prod.fst = (get_functions_message cap).map Method.name := by
  obtain ⟨res, hok, hmap, _⟩ := compile_ok cap h1 h2 h3
  refine ⟨res, hok, hmap, ?_⟩
  rw [hmap]
  simp

/-- Claim C1, counterexample to the original statement: a capability whose
single annotated entry point satisfies all constraints but which carries two
status-marked methods makes compilation fail, so validity of the entry
points alone does not guarantee success. -/
theorem c1_counterexample :
    (get_functions_message capOneEntryTwoStatus).all methodOkB = true ∧
    get_functions_message capOneEntryTwoStatus ≠ [] ∧
    exceptErr (get_schemas_and_functions capOneEntryTwoStatus) = true := by
  refine ⟨by decide, ?_, by rfl⟩
  have he : get_functions_message capOneEntryTwoStatus = [validEchoMethod] := rfl
  simp [he]

/-- Witness for C1 at a one-entry-point capability with no status
method. -/
theorem c1_amended_witness :
    ∃ res, get_schemas_and_functions (Capability.mk ("ValidCapability") [validEchoMethod]) =
        .ok res ∧
      res.function_map = (get_functions_message
        (Capability.mk ("ValidCapability") [validEchoMethod])).map
          (fun m => (m.name, FunctionMetadata.mk m (reqAdOf m) (respAdOf m))) ∧
      res.function_map.map Prod.fst = (get_functions_message
        (Capability.mk ("ValidCapability") [validEchoMethod])).map Method.name :=
  c1_amended (Capability.mk ("ValidCapability") [validEchoMethod])
    (by
      have he : get_functions_message (Capability.mk ("ValidCapability") [validEchoMethod]) =
        [validEchoMethod] := rfl
      simp [he])
    (by decide) (by decide)

/-- Characterisation of the warnings _status_fn_schema can log: either
none, or exactly the status-absence warning. -/
theorem status_warn_char (cap : Capability) (s : Defs) (trip : StatusTriple) (s2 : Defs)
    (w : List String) (h : status_fn_schema cap s = .ok (trip, s2, w)) :
    w = [] ∨ (get_functions_status cap = [] ∧ w = [statusAbsentMsg cap.name]) := by
  rcases hs : get_functions_status cap with _ | ⟨m, _ | ⟨m2, rest⟩⟩
  · rw [status_none cap hs s] at h
    injection h with h2
    right
    refine ⟨rfl, ?_⟩
    have := congrArg (fun t => t.2.2) h2
    simpa using this.symm
  · unfold status_fn_schema at h
    rw [hs] at h
    norm_num at h
    repeat' split at h
    all_goals first
      | exact absurd h (fun hcon => Except.noConfusion hcon)
      | (injection h with h2; left;
          have := congrArg (fun t => t.2.2) h2; simpa using this.symm)
  · unfold status_fn_schema at h
    rw [hs] at h
    norm_num at h
    exact absurd h (fun hcon => Except.noConfusion hcon)

/-- Claim C8: on every capability with at least one valid entry point and
zero status-marked methods, compilation does not halt: it returns all
artifacts with empty status information and logs the absence warning;
conversely, any warning present in a successful compilation is that single
status-absence diagnostic, so status-accessor absence is the one non-fatal
diagnostic. -/
theorem c8_status_absence_nonfatal :
    (∀ cap : Capability, get_functions_status cap = [] →
      get_functions_message cap ≠ [] →
      (∀ m ∈ get_functions_message cap, methodOkB m = true) →
      ∃ res, get_schemas_and_functions cap = .ok res ∧
        res.status = StatusTriple.mk none none Ann.noneT ∧
        res.warnings = [statusAbsentMsg cap.name]) ∧
    (∀ (cap : Capability) (res : IntrospectionResult),
      get_schemas_and_functions cap = .ok res → res.warnings ≠ [] →
      get_functions_status cap = [] ∧ res.warnings = [statusAbsentMsg cap.name]) := by
  constructor
  · intro cap hs h1 h2
    obtain ⟨s2, chans, hall, _⟩ := processAll_ok cap.name (get_functions_message cap) h2 [] [] []
    refine ⟨IntrospectionResult.mk s2 (StatusTriple.mk none none Ann.noneT) chans
      ((get_functions_message cap).map
        (fun m => (m.name, FunctionMetadata.mk m (reqAdOf m) (respAdOf m))))
      [statusAbsentMsg cap.name], ?_, rfl, rfl⟩
    simp only [get_schemas_and_functions, hall]
    have hne : ((get_functions_message cap).map
        (fun m => (m.name, FunctionMetadata.mk m (reqAdOf m) (respAdOf m)))).isEmpty = false := by
      cases hmm : get_functions_message cap with
      | nil => exact absurd hmm h1
      | cons x xs => simp
    simp only [List.nil_append, hne, Bool.false_eq_true, if_false]
    rw [status_none cap hs s2]
  · intro cap res h hw
    unfold get_schemas_and_functions at h
    split at h
    · exact absurd h (fun hcon => Except.noConfusion hcon)
    · split at h
      · exact absurd h (fun hcon => Except.noConfusion hcon)
      · split at h
        · exact absurd h (fun hcon => Except.noConfusion hcon)
        · rename_i s ch fm hproc hne trip2 pr hst
          injection h with h2
          subst h2
          simp only at hw ⊢
          rcases status_warn_char cap _ _ _ _ hst with hempty | ⟨hnil, habs⟩
          · exact absurd hempty hw
          · exact ⟨hnil, habs⟩

/-- Witness for C8 at a one-entry-point capability with no status
method. -/
theorem c8_witness :
    ∃ res, get_schemas_and_functions (Capability.mk ("NoStatusCap") [validEchoMethod]) =
        .ok res ∧
      res.status = StatusTriple.mk none none Ann.noneT ∧
      res.warnings = [statusAbsentMsg ("NoStatusCap")] :=
  c8_status_absence_nonfatal.1 (Capability.mk ("NoStatusCap") [validEchoMethod]) rfl
    (by
      have he : get_functions_message (Capability.mk ("NoStatusCap") [validEchoMethod]) =
        [validEchoMethod] := rfl
      simp [he])
    (by decide)

/-- Claim C4, demonstration of the code bug: the source of
get_schemas_and_functions never inspects parameter defaults, so a capability
whose entry point parameter carries a call-signature default value compiles
successfully and is registered in the function map, although the repository
test suite asserts that this must die with "should not use a default value
in the function parameter". -/
theorem c4_code_accepts_default :
    (get_functions_message capDefaultParam).all
      (fun m => m.params.any (fun p => p.hasDefault)) = true ∧
    (get_schemas_and_functions capDefaultParam).map
      (fun res => res.function_map.map Prod.fst) = .ok [("disallow_default_param")] := by
  exact ⟨rfl, rfl⟩

theorem lookupAttr_setAttr_self (l : List (String × AttrValue)) (k : String) (v : AttrValue) :
    lookupAttr (setAttr l k v) k = some v := by
  induction l with
  | nil => simp [setAttr, lookupAttr]
  | cons p rest ih =>
    obtain ⟨k2, v2⟩ := p
    by_cases hk : k2 = k
    · simp [setAttr, lookupAttr, hk]
    · simp [setAttr, lookupAttr, hk, ih]

theorem lookupAttr_setAttr_other (l : List (String × AttrValue)) (k k2 : String)
    (v : AttrValue) (hne : k ≠ k2) :
    lookupAttr (setAttr l k v) k2 = lookupAttr l k2 := by
  induction l with
  | nil => simp [setAttr, lookupAttr, hne]
  | cons p rest ih =>
    obtain ⟨k3, v3⟩ := p
    by_cases hk : k3 = k
    · subst hk
      simp [setAttr, lookupAttr, hne]
    · simp [setAttr, lookupAttr, hk, ih]

/-- Claim C9: applying intersect_message (with any recognized
configuration) or intersect_status to a callable yields a callable that is
extensionally equal to the original on every argument (same returned value,
same raised exception, both modelled by the Except-valued call), the
decoration only attaching the marker metadata attributes. -/
theorem c9_decorators_preserve_call {args err res : Type}
    (ignore_keys : Option (List String)) (request_content_type : IntersectMimeType)
    (response_data_transfer_handler : IntersectDataHandler)
    (response_content_type : IntersectMimeType) (strict_request_validation : Bool)
    (f : PyCallable args err res) (x : args) :
    (intersect_message ignore_keys request_content_type response_data_transfer_handler
        response_content_type strict_request_validation f).call x = f.call x ∧
    (intersect_status f).call x = f.call x ∧
    lookupAttr (intersect_message ignore_keys request_content_type
        response_data_transfer_handler response_content_type strict_request_validation f).attrs
      BASE_ATTR = some (AttrValue.boolV true) ∧
    lookupAttr (intersect_status f).attrs BASE_STATUS_ATTR = some (AttrValue.boolV true) := by
  refine ⟨rfl, rfl, ?_, ?_⟩
  · show lookupAttr (setAttr (setAttr (setAttr (setAttr (setAttr (setAttr f.attrs
      BASE_ATTR (AttrValue.boolV true))
      REQUEST_CONTENT (AttrValue.strV request_content_type.value))
      RESPONSE_CONTENT (AttrValue.strV response_content_type.value))
      RESPONSE_DATA (AttrValue.natV response_data_transfer_handler.value))
      STRICT_VALIDATION (AttrValue.boolV strict_request_validation))
      SHUTDOWN_KEYS (AttrValue.setV (match ignore_keys with
        | some ks => ks
        | none => []))) BASE_ATTR = some (AttrValue.boolV true)
    rw [lookupAttr_setAttr_other _ _ _ _ (by decide),
      lookupAttr_setAttr_other _ _ _ _ (by decide),
      lookupAttr_setAttr_other _ _ _ _ (by decide),
      lookupAttr_setAttr_other _ _ _ _ (by decide),
      lookupAttr_setAttr_other _ _ _ _ (by decide),
      lookupAttr_setAttr_self]
  · show lookupAttr (setAttr f.attrs BASE_STATUS_ATTR (AttrValue.boolV true))
      BASE_STATUS_ATTR = some (AttrValue.boolV true)
    rw [lookupAttr_setAttr_self]

/-- Claim C10: an entry point whose single non-receiver parameter is
explicitly annotated None is accepted by introspection, registers no request
adapter in its function-map entry, and emits no request payload schema in
the subscribe message of its channel record. -/
theorem c10_none_param (cname mname pname : String) (r : Ann)
    (h : exceptErr (genTop (toCore r)) = false) :
    ∃ res, get_schemas_and_functions
        (singleMsgCap cname mname pname AnnState.noneA (AnnState.typ r)) = .ok res ∧
      res.function_map.map (fun e => (e.1, e.2.requestAdapter, e.2.responseAdapter)) =
        [(mname, none, some r)] ∧
      res.channels.map (fun e => (e.1, e.2.subscribe.message.payload)) = [(mname, none)] := by
  obtain ⟨pay, s2, hm⟩ := merge_ok_of_genTop r [] h
  have hcomp : get_schemas_and_functions
      (singleMsgCap cname mname pname AnnState.noneA (AnnState.typ r)) =
      .ok (IntrospectionResult.mk s2 (StatusTriple.mk none none Ann.noneT)
        [(mname, buildChannel (Method.mk mname true false
          [Param.mk ("self") AnnState.empty false, Param.mk pname AnnState.noneA false]
          (AnnState.typ r) none ("application/json") ("application/json")) none (some pay))]
        [(mname, FunctionMetadata.mk (Method.mk mname true false
          [Param.mk ("self") AnnState.empty false, Param.mk pname AnnState.noneA false]
          (AnnState.typ r) none ("application/json") ("application/json")) none (some r))]
        [statusAbsentMsg cname]) := by
    simp [get_schemas_and_functions, singleMsgCap, get_functions_message, get_functions_status,
      processAll, process_message_fn, hm, status_fn_schema, statusAbsentMsg]
  refine ⟨_, hcomp, ?_, ?_⟩ <;> simp [buildChannel]

/-- Witness for C10 at a None-parameter entry point returning int. -/
theorem c10_witness :
    ∃ res, get_schemas_and_functions
        (singleMsgCap ("NoneParamCap") ("f") ("param") AnnState.noneA
          (AnnState.typ Ann.intT)) = .ok res ∧
      res.function_map.map (fun e => (e.1, e.2.requestAdapter, e.2.responseAdapter)) =
        [(("f"), none, some Ann.intT)] ∧
      res.channels.map (fun e => (e.1, e.2.subscribe.message.payload)) = [(("f"), none)] :=
  c10_none_param ("NoneParamCap") ("f") ("param") Ann.intT (by decide)

theorem dict_key_err (k v : Ann) (hk : toCore k ≠ CoreSchema.strC) :
    genTop (toCore (Ann.dictT (some (k, v)))) =
      .error ("dict or mapping key type needs to be \'str\' for INTERSECT") := by
  by_cases ha : isAnyT k = true
  · simp [toCore, genTop, generate_inner, elideAny, ha]
  · cases hc : toCore k <;> simp_all [toCore, genTop, generate_inner, elideAny]

theorem invalidParamMsg_contains_pname (cname pname : String) (a : Ann) (mname e : String) :
    strContains (invalidParamMsg cname pname a mname e) pname = true := by
  unfold invalidParamMsg
  exact strContains_append_left _ _ _ (strContains_append_left _ _ _
    (strContains_append_left _ _ _ (strContains_append_left _ _ _
      (strContains_append_left _ _ _ (strContains_append_left _ _ _
        (strContains_append_right _ _ _ (strContains_refl pname)))))))

/-- Claim C6: an entry-point parameter typed as a mapping with a
non-string key type is rejected with a message that names the parameter and
contains "key type needs to be \'str\'", whatever the value type; a mapping
with string keys and an Any value type is rejected with the distinct
value-type message, which does not contain the key-type fragment. -/
theorem c6_mapping_checks :
    (∀ (cname mname pname : String) (k v : Ann), toCore k ≠ CoreSchema.strC →
      get_schemas_and_functions (singleMsgCap cname mname pname
          (AnnState.typ (Ann.dictT (some (k, v)))) (AnnState.typ Ann.intT)) =
        .error (invalidParamMsg cname pname (Ann.dictT (some (k, v))) mname
          ("dict or mapping key type needs to be \'str\' for INTERSECT")) ∧
      strContains (invalidParamMsg cname pname (Ann.dictT (some (k, v))) mname
          ("dict or mapping key type needs to be \'str\' for INTERSECT"))
        ("key type needs to be \'str\'") = true ∧
      strContains (invalidParamMsg cname pname (Ann.dictT (some (k, v))) mname
          ("dict or mapping key type needs to be \'str\' for INTERSECT")) pname = true) ∧
    (get_schemas_and_functions (singleMsgCap ("MockAnyDictValue") ("mock_message") ("param")
        (AnnState.typ (Ann.dictT (some (Ann.strT, Ann.anyT)))) (AnnState.typ Ann.intT)) =
      .error (invalidParamMsg ("MockAnyDictValue") ("param")
        (Ann.dictT (some (Ann.strT, Ann.anyT))) ("mock_message")
        ("dict or mapping value type cannot be Any/object for INTERSECT")) ∧
     strContains (invalidParamMsg ("MockAnyDictValue") ("param")
        (Ann.dictT (some (Ann.strT, Ann.anyT))) ("mock_message")
        ("dict or mapping value type cannot be Any/object for INTERSECT"))
       ("key type needs to be") = false) := by
  constructor
  · intro cname mname pname k v hk
    refine ⟨singleMsgCap_param_err _ _ _ _ _ _ (dict_key_err k v hk), ?_,
      invalidParamMsg_contains_pname cname pname _ mname _⟩
    unfold invalidParamMsg
    exact strContains_append_right _ _ _ (by decide)
  · exact ⟨singleMsgCap_param_err _ _ _ _ _ _ rfl, by decide⟩

/-- Witness for C6 at the parameter type Dict[List[int], str]. -/
theorem c6_witness :
    toCore (Ann.listT (some Ann.intT)) ≠ CoreSchema.strC ∧
    get_schemas_and_functions (singleMsgCap ("MockNonStrDictKey") ("mock_message") ("param")
        (AnnState.typ (Ann.dictT (some (Ann.listT (some Ann.intT), Ann.strT))))
        (AnnState.typ Ann.intT)) =
      .error (invalidParamMsg ("MockNonStrDictKey") ("param")
        (Ann.dictT (some (Ann.listT (some Ann.intT), Ann.strT))) ("mock_message")
        ("dict or mapping key type needs to be \'str\' for INTERSECT")) :=
  ⟨by simp [toCore, elideAny, isAnyT], (c6_mapping_checks.1 ("MockNonStrDictKey")
    ("mock_message") ("param") (Ann.listT (some Ann.intT)) Ann.strT
    (by simp [toCore, elideAny, isAnyT])).1⟩

theorem genTop_model_shape (n : String) (fs : List (String × Ann)) (j : JsonVal) (d : Defs)
    (h : genTop (toCore (Ann.modelT n fs)) = .ok (j, d)) :
    jtypeIs j ("object") = true := by
  simp only [toCore, genTop] at h
  cases hg : genFields (toCoreFields fs) with
  | error e => rw [hg] at h; simp [Bind.bind, Except.bind] at h
  | ok pr =>
    obtain ⟨props, d2⟩ := pr
    rw [hg] at h
    simp only [Bind.bind, Except.bind] at h
    split at h
    · simp at h
    · injection h with h2
      have hj : JsonVal.obj [(("type"), JsonVal.str ("object")),
          (("properties"), JsonVal.obj props),
          (("required"), JsonVal.arr (reqNames (toCoreFields fs))),
          (("title"), JsonVal.str n)] = j := congrArg Prod.fst h2
      rw [← hj]
      rfl

theorem merge_model (n : String) (fs : List (String × Ann)) (s : Defs) (j : JsonVal) (d : Defs)
    (h : genTop (toCore (Ann.modelT n fs)) = .ok (j, d)) :
    merge_schema_definitions (Ann.modelT n fs) s =
      .ok (refJson n, upsert (mergeDefsAux s d) n j) := by
  have hshape := genTop_model_shape n fs j d h
  unfold merge_schema_definitions
  rw [h]
  simp [isAliasB, isMappingOriginB, annName, hshape]

theorem genTop_dataclass_shape (n : String) (fs : List (String × Ann)) (j : JsonVal) (d : Defs)
    (h : genTop (toCore (Ann.dataclassT n fs)) = .ok (j, d)) :
    jtypeIs j ("object") = true := by
  simp only [toCore, genTop] at h
  cases hg : genFields (toCoreFields fs) with
  | error e => rw [hg] at h; simp [Bind.bind, Except.bind] at h
  | ok pr =>
    obtain ⟨props, d2⟩ := pr
    rw [hg] at h
    simp only [Bind.bind, Except.bind] at h
    split at h
    · simp at h
    · injection h with h2
      have hj := congrArg Prod.fst h2
      simp only at hj
      rw [← hj]
      rfl

theorem merge_dataclass (n : String) (fs : List (String × Ann)) (s : Defs) (j : JsonVal)
    (d : Defs) (h : genTop (toCore (Ann.dataclassT n fs)) = .ok (j, d)) :
    merge_schema_definitions (Ann.dataclassT n fs) s =
      .ok (refJson n, upsert (mergeDefsAux s d) n j) := by
  have hshape := genTop_dataclass_shape n fs j d h
  unfold merge_schema_definitions
  rw [h]
  simp [isAliasB, isMappingOriginB, annName, hshape]

theorem genTop_typedDict_shape (n : String) (fs : List (String × Ann)) (j : JsonVal) (d : Defs)
    (h : genTop (toCore (Ann.typedDictT n fs)) = .ok (j, d)) :
    jtypeIs j ("object") = true := by
  simp only [toCore, genTop] at h
  cases hg : genFields (toCoreFields fs) with
  | error e => rw [hg] at h; simp [Bind.bind, Except.bind] at h
  | ok pr =>
    obtain ⟨props, d2⟩ := pr
    rw [hg] at h
    simp only [Bind.bind, Except.bind] at h
    split at h
    · simp at h
    · injection h with h2
      have hj := congrArg Prod.fst h2
      simp only at hj
      rw [← hj]
      rfl

theorem merge_typedDict (n : String) (fs : List (String × Ann)) (s : Defs) (j : JsonVal)
    (d : Defs) (h : genTop (toCore (Ann.typedDictT n fs)) = .ok (j, d)) :
    merge_schema_definitions (Ann.typedDictT n fs) s =
      .ok (refJson n, upsert (mergeDefsAux s d) n j) := by
  have hshape := genTop_typedDict_shape n fs j d h
  unfold merge_schema_definitions
  rw [h]
  simp [isAliasB, isMappingOriginB, annName, hshape]

theorem jtypeIs_ne (j : JsonVal) (t1 t2 : String) (h : jtypeIs j t1 = true) (hne : t1 ≠ t2) :
    jtypeIs j t2 = false := by
  rcases hj : jget j ("type") with _ | jv
  · simp [jtypeIs, hj] at h
  · rcases jv with sv | iv | bv | av | ov
    · simp only [jtypeIs, hj, decide_eq_true_eq] at h
      subst h
      simp [jtypeIs, hj, hne]
    · simp [jtypeIs, hj] at h
    · simp [jtypeIs, hj] at h
    · simp [jtypeIs, hj] at h
    · simp [jtypeIs, hj] at h

theorem genTop_namedTuple_shape (n : String) (fs : List (String × Ann)) (j : JsonVal)
    (d : Defs) (h : genTop (toCore (Ann.namedTupleT n fs)) = .ok (j, d)) :
    jtypeIs j ("array") = true := by
  simp only [toCore, genTop] at h
  cases hf : toCoreFields fs with
  | nil => rw [hf] at h; simp [generate_inner] at h
  | cons f r =>
    rw [hf] at h
    simp only [generate_inner] at h
    cases hg : genFields (f :: r) with
    | error e => rw [hg] at h; simp [Bind.bind, Except.bind] at h
    | ok pr =>
      obtain ⟨props, d2⟩ := pr
      rw [hg] at h
      simp only [Bind.bind, Except.bind] at h
      injection h with h2
      have hj := congrArg Prod.fst h2
      simp only at hj
      rw [← hj]
      rfl

theorem merge_namedTuple (n : String) (fs : List (String × Ann)) (s : Defs) (j : JsonVal)
    (d : Defs) (h : genTop (toCore (Ann.namedTupleT n fs)) = .ok (j, d)) :
    merge_schema_definitions (Ann.namedTupleT n fs) s =
      .ok (refJson n, upsert (mergeDefsAux s d) n j) := by
  have hshape := genTop_namedTuple_shape n fs j d h
  have hobj : jtypeIs j ("object") = false := jtypeIs_ne j ("array") ("object") hshape (by decide)
  unfold merge_schema_definitions
  rw [h]
  simp [isAliasB, isNamedTupleClassB, annName, hshape, hobj]

theorem genTop_list_shape (x : Option Ann) (j : JsonVal) (d : Defs)
    (h : genTop (toCore (Ann.listT x)) = .ok (j, d)) :
    jtypeIs j ("array") = true := by
  rcases x with _ | b
  · simp [toCore, genTop, generate_inner] at h
  · simp only [toCore, genTop] at h
    rcases hK : elideAny b (toCore b) with _ | bc
    · rw [hK] at h; simp [generate_inner] at h
    · rw [hK] at h
      simp only [generate_inner] at h
      cases hg : generate_inner bc with
      | error e => rw [hg] at h; simp [Bind.bind, Except.bind] at h
      | ok pr =>
        obtain ⟨jb, db⟩ := pr
        rw [hg] at h
        simp only [Bind.bind, Except.bind] at h
        injection h with h2
        have hj := congrArg Prod.fst h2
        simp only at hj
        rw [← hj]
        rfl

theorem merge_list (x : Option Ann) (s : Defs) (j : JsonVal) (d : Defs)
    (h : genTop (toCore (Ann.listT x)) = .ok (j, d)) :
    merge_schema_definitions (Ann.listT x) s = .ok (j, mergeDefsAux s d) := by
  have hshape := genTop_list_shape x j d h
  have hobj : jtypeIs j ("object") = false := jtypeIs_ne j ("array") ("object") hshape (by decide)
  unfold merge_schema_definitions
  rw [h]
  simp [isAliasB, isNamedTupleClassB, annName, hshape, hobj]

theorem genTop_tupleP_shape (ms : List Ann) (j : JsonVal) (d : Defs)
    (h : genTop (toCore (Ann.tuplePT ms)) = .ok (j, d)) :
    jtypeIs j ("array") = true := by
  simp only [toCore, genTop, generate_inner] at h
  cases hg : genItems (toCoreList ms) with
  | error e => rw [hg] at h; simp [Bind.bind, Except.bind] at h
  | ok pr =>
    obtain ⟨js, d2⟩ := pr
    rw [hg] at h
    simp only [Bind.bind, Except.bind] at h
    split at h
    · simp at h
    · injection h with h2
      have hj := congrArg Prod.fst h2
      simp only at hj
      rw [← hj]
      rfl

theorem merge_tupleP (ms : List Ann) (s : Defs) (j : JsonVal) (d : Defs)
    (h : genTop (toCore (Ann.tuplePT ms)) = .ok (j, d)) :
    merge_schema_definitions (Ann.tuplePT ms) s = .ok (j, mergeDefsAux s d) := by
  have hshape := genTop_tupleP_shape ms j d h
  have hobj : jtypeIs j ("object") = false := jtypeIs_ne j ("array") ("object") hshape (by decide)
  unfold merge_schema_definitions
  rw [h]
  simp [isAliasB, isNamedTupleClassB, annName, hshape, hobj]

theorem genTop_dict_shape (kv : Option (Ann × Ann)) (j : JsonVal) (d : Defs)
    (h : genTop (toCore (Ann.dictT kv)) = .ok (j, d)) :
    jtypeIs j ("object") = true := by
  rcases kv with _ | ⟨k, v⟩
  · simp [toCore, genTop, generate_inner] at h
  · simp only [toCore, genTop] at h
    rcases hK : elideAny k (toCore k) with _ | kc
    · rw [hK] at h; simp [generate_inner] at h
    · rw [hK] at h
      cases kc
      case strC =>
        rcases hV : elideAny v (toCore v) with _ | vc
        · rw [hV] at h; simp [generate_inner, truthyOpt, jget, lookupStr] at h
        · rw [hV] at h
          simp only [generate_inner] at h
          cases hg : generate_inner vc with
          | error e => rw [hg] at h; simp [Bind.bind, Except.bind] at h
          | ok pr =>
            obtain ⟨jv, dv⟩ := pr
            rw [hg] at h
            simp only [Bind.bind, Except.bind] at h
            split at h
            · injection h with h2
              have hj := congrArg Prod.fst h2
              simp only at hj
              rw [← hj]
              rfl
            · simp at h
      all_goals simp [generate_inner] at h

theorem merge_dict (kv : Option (Ann × Ann)) (s : Defs) (j : JsonVal) (d : Defs)
    (h : genTop (toCore (Ann.dictT kv)) = .ok (j, d)) :
    merge_schema_definitions (Ann.dictT kv) s = .ok (j, mergeDefsAux s d) := by
  have hshape := genTop_dict_shape kv j d h
  unfold merge_schema_definitions
  rw [h]
  simp [isAliasB, isMappingOriginB, hshape]

theorem genTop_enum_shape (n : String) (vs : List String) (j : JsonVal) (d : Defs)
    (h : genTop (toCore (Ann.enumT n vs)) = .ok (j, d)) :
    ((jget j ("enum")).isSome ∨ (jget j ("const")).isSome) ∧
      jtypeIs j ("object") = false ∧ jtypeIs j ("array") = false := by
  simp only [toCore, genTop] at h
  rcases vs with _ | ⟨v, _ | ⟨v2, rest⟩⟩
  · simp only [enumBody] at h
    injection h with h2
    have hj := congrArg Prod.fst h2
    simp only at hj
    rw [← hj]
    refine ⟨Or.inl rfl, rfl, rfl⟩
  · simp only [enumBody] at h
    injection h with h2
    have hj := congrArg Prod.fst h2
    simp only at hj
    rw [← hj]
    refine ⟨Or.inr rfl, rfl, rfl⟩
  · simp only [enumBody] at h
    injection h with h2
    have hj := congrArg Prod.fst h2
    simp only at hj
    rw [← hj]
    refine ⟨Or.inl rfl, rfl, rfl⟩

theorem merge_enum (n : String) (vs : List String) (s : Defs) (j : JsonVal) (d : Defs)
    (h : genTop (toCore (Ann.enumT n vs)) = .ok (j, d)) :
    merge_schema_definitions (Ann.enumT n vs) s =
      .ok (refJson n, upsert (mergeDefsAux s d) n j) := by
  obtain ⟨hmark, hobj, harr⟩ := genTop_enum_shape n vs j d h
  unfold merge_schema_definitions
  rw [h]
  rcases hmark with he | hc
  · simp only [Option.isSome_iff_exists] at he
    obtain ⟨jv, hjv⟩ := he
    simp [isAliasB, isEnumClassB, annName, hobj, harr, hjv]
  · simp only [Option.isSome_iff_exists] at hc
    obtain ⟨jv, hjv⟩ := hc
    simp [isAliasB, isEnumClassB, annName, hobj, harr, hjv]

theorem genTop_literal_shape (vs : List String) (j : JsonVal) (d : Defs)
    (h : genTop (toCore (Ann.literalT vs)) = .ok (j, d)) :
    ((jget j ("enum")).isSome ∨ (jget j ("const")).isSome) ∧
      jtypeIs j ("object") = false ∧ jtypeIs j ("array") = false := by
  simp only [toCore, genTop, generate_inner] at h
  rcases vs with _ | ⟨v, _ | ⟨v2, rest⟩⟩
  · simp only [literalSchema] at h
    injection h with h2
    have hj := congrArg Prod.fst h2
    simp only at hj
    rw [← hj]
    exact ⟨Or.inl rfl, rfl, rfl⟩
  · simp only [literalSchema] at h
    injection h with h2
    have hj := congrArg Prod.fst h2
    simp only at hj
    rw [← hj]
    exact ⟨Or.inr rfl, rfl, rfl⟩
  · simp only [literalSchema] at h
    injection h with h2
    have hj := congrArg Prod.fst h2
    simp only at hj
    rw [← hj]
    exact ⟨Or.inl rfl, rfl, rfl⟩

theorem merge_literal (vs : List String) (s : Defs) (j : JsonVal) (d : Defs)
    (h : genTop (toCore (Ann.literalT vs)) = .ok (j, d)) :
    merge_schema_definitions (Ann.literalT vs) s = .ok (j, mergeDefsAux s d) := by
  obtain ⟨hmark, hobj, harr⟩ := genTop_literal_shape vs j d h
  unfold merge_schema_definitions
  rw [h]
  rcases hmark with he | hc
  · simp only [Option.isSome_iff_exists] at he
    obtain ⟨jv, hjv⟩ := he
    simp [isAliasB, isEnumClassB, hobj, harr, hjv]
  · simp only [Option.isSome_iff_exists] at hc
    obtain ⟨jv, hjv⟩ := hc
    simp [isAliasB, isEnumClassB, hobj, harr, hjv]

/-- Shape of a successful set generation: an array schema. -/
theorem genTop_set_shape (x : Option Ann) (j : JsonVal) (d : Defs)
    (h : genTop (toCore (Ann.setT x)) = .ok (j, d)) :
    jtypeIs j ("array") = true := by
  rcases x with _ | b
  · simp [toCore, genTop, generate_inner] at h
  · simp only [toCore, genTop] at h
    rcases hK : elideAny b (toCore b) with _ | bc
    · rw [hK] at h; simp [generate_inner] at h
    · rw [hK] at h
      simp only [generate_inner] at h
      cases hg : generate_inner bc with
      | error e => rw [hg] at h; simp [Bind.bind, Except.bind] at h
      | ok pr =>
        obtain ⟨jb, db⟩ := pr
        rw [hg] at h
        simp only [Bind.bind, Except.bind] at h
        injection h with h2
        have hj := congrArg Prod.fst h2
        simp only at hj
        rw [← hj]
        rfl

/-- A set fragment is array-shaped and inlined by merge_schema_definitions
(sets are not NamedTuple classes). -/
theorem merge_set (x : Option Ann) (s : Defs) (j : JsonVal) (d : Defs)
    (h : genTop (toCore (Ann.setT x)) = .ok (j, d)) :
    merge_schema_definitions (Ann.setT x) s = .ok (j, mergeDefsAux s d) := by
  have hshape := genTop_set_shape x j d h
  have hobj : jtypeIs j ("object") = false := jtypeIs_ne j ("array") ("object") hshape (by decide)
  unfold merge_schema_definitions
  rw [h]
  simp [isAliasB, isNamedTupleClassB, annName, hshape, hobj]

/-- Shape of a successful frozenset generation: an array schema. -/
theorem genTop_frozenset_shape (x : Option Ann) (j : JsonVal) (d : Defs)
    (h : genTop (toCore (Ann.frozensetT x)) = .ok (j, d)) :
    jtypeIs j ("array") = true := by
  rcases x with _ | b
  · simp [toCore, genTop, generate_inner] at h
  · simp only [toCore, genTop] at h
    rcases hK : elideAny b (toCore b) with _ | bc
    · rw [hK] at h; simp [generate_inner] at h
    · rw [hK] at h
      simp only [generate_inner] at h
      cases hg : generate_inner bc with
      | error e => rw [hg] at h; simp [Bind.bind, Except.bind] at h
      | ok pr =>
        obtain ⟨jb, db⟩ := pr
        rw [hg] at h
        simp only [Bind.bind, Except.bind] at h
        injection h with h2
        have hj := congrArg Prod.fst h2
        simp only at hj
        rw [← hj]
        rfl

/-- A frozenset fragment is array-shaped and inlined by
merge_schema_definitions. -/
theorem merge_frozenset (x : Option Ann) (s : Defs) (j : JsonVal) (d : Defs)
    (h : genTop (toCore (Ann.frozensetT x)) = .ok (j, d)) :
    merge_schema_definitions (Ann.frozensetT x) s = .ok (j, mergeDefsAux s d) := by
  have hshape := genTop_frozenset_shape x j d h
  have hobj : jtypeIs j ("object") = false := jtypeIs_ne j ("array") ("object") hshape (by decide)
  unfold merge_schema_definitions
  rw [h]
  simp [isAliasB, isNamedTupleClassB, annName, hshape, hobj]

/-- Shape of a successful variable-tuple generation: an array schema. -/
theorem genTop_tupleV_shape (x : Option Ann) (j : JsonVal) (d : Defs)
    (h : genTop (toCore (Ann.tupleVT x)) = .ok (j, d)) :
    jtypeIs j ("array") = true := by
  rcases x with _ | b
  · simp [toCore, genTop, generate_inner] at h
  · simp only [toCore, genTop] at h
    rcases hK : elideAny b (toCore b) with _ | bc
    · rw [hK] at h; simp [generate_inner] at h
    · rw [hK] at h
      simp only [generate_inner] at h
      cases hg : generate_inner bc with
      | error e => rw [hg] at h; simp [Bind.bind, Except.bind] at h
      | ok pr =>
        obtain ⟨jb, db⟩ := pr
        rw [hg] at h
        simp only [Bind.bind, Except.bind] at h
        injection h with h2
        have hj := congrArg Prod.fst h2
        simp only at hj
        rw [← hj]
        rfl

/-- A variable-tuple fragment is array-shaped and inlined by
merge_schema_definitions (the issubclass-Tuple-with-fields check is about
the annotation being a NamedTuple class, which a generic tuple alias is
not). -/
theorem merge_tupleV (x : Option Ann) (s : Defs) (j : JsonVal) (d : Defs)
    (h : genTop (toCore (Ann.tupleVT x)) = .ok (j, d)) :
    merge_schema_definitions (Ann.tupleVT x) s = .ok (j, mergeDefsAux s d) := by
  have hshape := genTop_tupleV_shape x j d h
  have hobj : jtypeIs j ("object") = false := jtypeIs_ne j ("array") ("object") hshape (by decide)
  unfold merge_schema_definitions
  rw [h]
  simp [isAliasB, isNamedTupleClassB, annName, hshape, hobj]

/-- Shape of a successful generator generation: an array schema built from
the yield type. -/
theorem genTop_generator_shape (y sn rt : Ann) (j : JsonVal) (d : Defs)
    (h : genTop (toCore (Ann.generatorT y sn rt)) = .ok (j, d)) :
    jtypeIs j ("array") = true := by
  simp only [toCore, genTop, generate_inner] at h
  cases hg : generate_inner (toCore y) with
  | error e => rw [hg] at h; simp [Bind.bind, Except.bind] at h
  | ok pr =>
    obtain ⟨jy, dy⟩ := pr
    rw [hg] at h
    simp only [Bind.bind, Except.bind] at h
    split at h
    · injection h with h2
      have hj := congrArg Prod.fst h2
      simp only at hj
      rw [← hj]
      rfl
    · simp at h

/-- A generator fragment is array-shaped and inlined by
merge_schema_definitions. -/
theorem merge_generator (y sn rt : Ann) (s : Defs) (j : JsonVal) (d : Defs)
    (h : genTop (toCore (Ann.generatorT y sn rt)) = .ok (j, d)) :
    merge_schema_definitions (Ann.generatorT y sn rt) s = .ok (j, mergeDefsAux s d) := by
  have hshape := genTop_generator_shape y sn rt j d h
  have hobj : jtypeIs j ("object") = false := jtypeIs_ne j ("array") ("object") hshape (by decide)
  unfold merge_schema_definitions
  rw [h]
  simp [isAliasB, isNamedTupleClassB, annName, hshape, hobj]

/-- Claim C3: promotion into the schema table follows the kind of the
originating type.  An object-shaped fragment from an anonymous mapping
annotation is returned inline (only its $defs are merged), while
object-shaped fragments of BaseModel, dataclass and TypedDict annotations
are promoted under the type name and replaced by a reference; among
array-shaped fragments exactly the NamedTuple ones are promoted while the
fragments of every other array-producing origin in the model — list,
positional tuple, set, frozenset, variable tuple and generator — are
inlined; among fragments carrying an enum or const marker the Enum ones are
promoted and Literal fragments are inlined. -/
theorem c3_promotion_policy :
    (∀ (kv : Option (Ann × Ann)) (s : Defs) (j : JsonVal) (d : Defs),
      genTop (toCore (Ann.dictT kv)) = .ok (j, d) →
      jtypeIs j ("object") = true ∧
      merge_schema_definitions (Ann.dictT kv) s = .ok (j, mergeDefsAux s d)) ∧
    (∀ (n : String) (fs : List (String × Ann)) (s : Defs) (j : JsonVal) (d : Defs),
      genTop (toCore (Ann.modelT n fs)) = .ok (j, d) →
      jtypeIs j ("object") = true ∧
      merge_schema_definitions (Ann.modelT n fs) s =
        .ok (refJson n, upsert (mergeDefsAux s d) n j)) ∧
    (∀ (n : String) (fs : List (String × Ann)) (s : Defs) (j : JsonVal) (d : Defs),
      genTop (toCore (Ann.dataclassT n fs)) = .ok (j, d) →
      jtypeIs j ("object") = true ∧
      merge_schema_definitions (Ann.dataclassT n fs) s =
        .ok (refJson n, upsert (mergeDefsAux s d) n j)) ∧
    (∀ (n : String) (fs : List (String × Ann)) (s : Defs) (j : JsonVal) (d : Defs),
      genTop (toCore (Ann.typedDictT n fs)) = .ok (j, d) →
      jtypeIs j ("object") = true ∧
      merge_schema_definitions (Ann.typedDictT n fs) s =
        .ok (refJson n, upsert (mergeDefsAux s d) n j)) ∧
    (∀ (n : String) (fs : List (String × Ann)) (s : Defs) (j : JsonVal) (d : Defs),
      genTop (toCore (Ann.namedTupleT n fs)) = .ok (j, d) →
      jtypeIs j ("array") = true ∧
      merge_schema_definitions (Ann.namedTupleT n fs) s =
        .ok (refJson n, upsert (mergeDefsAux s d) n j)) ∧
    (∀ (x : Option Ann) (s : Defs) (j : JsonVal) (d : Defs),
      genTop (toCore (Ann.listT x)) = .ok (j, d) →
      jtypeIs j ("array") = true ∧
      merge_schema_definitions (Ann.listT x) s = .ok (j, mergeDefsAux s d)) ∧
    (∀ (ms : List Ann) (s : Defs) (j : JsonVal) (d : Defs),
      genTop (toCore (Ann.tuplePT ms)) = .ok (j, d) →
      jtypeIs j ("array") = true ∧
      merge_schema_definitions (Ann.tuplePT ms) s = .ok (j, mergeDefsAux s d)) ∧
    (∀ (x : Option Ann) (s : Defs) (j : JsonVal) (d : Defs),
      genTop (toCore (Ann.setT x)) = .ok (j, d) →
      jtypeIs j ("array") = true ∧
      merge_schema_definitions (Ann.setT x) s = .ok (j, mergeDefsAux s d)) ∧
    (∀ (x : Option Ann) (s : Defs) (j : JsonVal) (d : Defs),
      genTop (toCore (Ann.frozensetT x)) = .ok (j, d) →
      jtypeIs j ("array") = true ∧
      merge_schema_definitions (Ann.frozensetT x) s = .ok (j, mergeDefsAux s d)) ∧
    (∀ (x : Option Ann) (s : Defs) (j : JsonVal) (d : Defs),
      genTop (toCore (Ann.tupleVT x)) = .ok (j, d) →
      jtypeIs j ("array") = true ∧
      merge_schema_definitions (Ann.tupleVT x) s = .ok (j, mergeDefsAux s d)) ∧
    (∀ (y sn rt : Ann) (s : Defs) (j : JsonVal) (d : Defs),
      genTop (toCore (Ann.generatorT y sn rt)) = .ok (j, d) →
      jtypeIs j ("array") = true ∧
      merge_schema_definitions (Ann.generatorT y sn rt) s = .ok (j, mergeDefsAux s d)) ∧
    (∀ (n : String) (vs : List String) (s : Defs) (j : JsonVal) (d : Defs),
      genTop (toCore (Ann.enumT n vs)) = .ok (j, d) →
      ((jget j ("enum")).isSome ∨ (jget j ("const")).isSome) ∧
      merge_schema_definitions (Ann.enumT n vs) s =
        .ok (refJson n, upsert (mergeDefsAux s d) n j)) ∧
    (∀ (vs : List String) (s : Defs) (j : JsonVal) (d : Defs),
      genTop (toCore (Ann.literalT vs)) = .ok (j, d) →
      ((jget j ("enum")).isSome ∨ (jget j ("const")).isSome) ∧
      merge_schema_definitions (Ann.literalT vs) s = .ok (j, mergeDefsAux s d)) := by
  refine ⟨?_, ?_, ?_, ?_, ?_, ?_, ?_, ?_, ?_, ?_, ?_, ?_, ?_⟩
  · exact fun kv s j d h => ⟨genTop_dict_shape kv j d h, merge_dict kv s j d h⟩
  · exact fun n fs s j d h => ⟨genTop_model_shape n fs j d h, merge_model n fs s j d h⟩
  · exact fun n fs s j d h => ⟨genTop_dataclass_shape n fs j d h, merge_dataclass n fs s j d h⟩
  · exact fun n fs s j d h => ⟨genTop_typedDict_shape n fs j d h, merge_typedDict n fs s j d h⟩
  · exact fun n fs s j d h => ⟨genTop_namedTuple_shape n fs j d h, merge_namedTuple n fs s j d h⟩
  · exact fun x s j d h => ⟨genTop_list_shape x j d h, merge_list x s j d h⟩
  · exact fun ms s j d h => ⟨genTop_tupleP_shape ms j d h, merge_tupleP ms s j d h⟩
  · exact fun x s j d h => ⟨genTop_set_shape x j d h, merge_set x s j d h⟩
  · exact fun x s j d h => ⟨genTop_frozenset_shape x j d h, merge_frozenset x s j d h⟩
  · exact fun x s j d h => ⟨genTop_tupleV_shape x j d h, merge_tupleV x s j d h⟩
  · exact fun y sn rt s j d h =>
      ⟨genTop_generator_shape y sn rt j d h, merge_generator y sn rt s j d h⟩
  · exact fun n vs s j d h => ⟨(genTop_enum_shape n vs j d h).1, merge_enum n vs s j d h⟩
  · exact fun vs s j d h => ⟨(genTop_literal_shape vs j d h).1, merge_literal vs s j d h⟩

/-- Witness for C3 at a one-field BaseModel annotation. -/
theorem c3_promotion_policy_witness :
    jtypeIs (JsonVal.obj [(("type"), JsonVal.str ("object")),
        (("properties"), JsonVal.obj [(("x"), JsonVal.obj [(("type"), JsonVal.str ("integer"))])]),
        (("required"), JsonVal.arr [JsonVal.str ("x")]),
        (("title"), JsonVal.str ("M"))]) ("object") = true ∧
    merge_schema_definitions (Ann.modelT ("M") [(("x"), Ann.intT)]) [] =
      .ok (refJson ("M"), upsert (mergeDefsAux [] [])
        ("M") (JsonVal.obj [(("type"), JsonVal.str ("object")),
          (("properties"), JsonVal.obj [(("x"), JsonVal.obj [(("type"), JsonVal.str ("integer"))])]),
          (("required"), JsonVal.arr [JsonVal.str ("x")]),
          (("title"), JsonVal.str ("M"))])) :=
  c3_promotion_policy.2.1 ("M") [(("x"), Ann.intT)] []
    (JsonVal.obj [(("type"), JsonVal.str ("object")),
      (("properties"), JsonVal.obj [(("x"), JsonVal.obj [(("type"), JsonVal.str ("integer"))])]),
      (("required"), JsonVal.arr [JsonVal.str ("x")]),
      (("title"), JsonVal.str ("M"))]) [] rfl

/-- Witness for C2 at the parameter type Dict[str, object]. -/
theorem c2_any_leaf_compile_fails_witness :
    hasAnyLeafB (Ann.dictT (some (Ann.strT, Ann.objT))) = true ∧
    exceptErr (get_schemas_and_functions (singleMsgCap ("MockCap") ("mock_message") ("param")
      (AnnState.typ (Ann.dictT (some (Ann.strT, Ann.objT)))) (AnnState.typ Ann.intT))) = true :=
  ⟨by decide, (c2_any_leaf_compile_fails.1 (Ann.dictT (some (Ann.strT, Ann.objT)))
    ("MockCap") ("mock_message") ("param") (by decide))⟩
